import Mathlib

/-!
Shallow embedding of the flow-execution core of the `flow-app` backend.

Sources embedded:
- `src/backend/app/services/task_assignment.py` (`resolve_assignee`,
  `get_next_stage`, `get_first_stage`);
- `src/backend/app/routers/flow_instances.py` (`create_flow_instance`,
  `calculate_elapsed_time`);
- `src/backend/app/routers/tasks.py` (`complete_task`).

The record layouts follow the alembic migration
`src/alembic/versions/ca6c0929fdc0_add_flow_execution_models.py`, which is the
schema the routers are written against (the file
`src/backend/app/models/flow_instance.py` is a stale variant whose column
names — `initiated_by_id`, `action_type`, no `assigned_at` — do not match the
routers; the migration does match them field for field).

Timestamps are modelled as rationals (seconds, with sub-second precision as
Python datetimes have microseconds).  JSON values are an opaque inductive: no
engine logic inspects a submitted value.
-/

namespace FlowApp

/-- JSON-typed value, as stored in `FormDataValue.value` ("Stored as JSON,
handles any type").  The engine never inspects the payload. -/
inductive JsonValue where
  | null : JsonValue
  | bool (b : Bool) : JsonValue
  | num (n : Int) : JsonValue
  | str (s : String) : JsonValue
deriving DecidableEq, Repr

/-- `app.models.user.User` (fields the execution core reads). -/
structure User where
  id : Nat
  email : String
deriving DecidableEq, Repr

/-- `app.models.flow.AssignmentType`. -/
inductive AssignmentType where
  | USER | ROLE | INITIATOR | EXTERNAL
deriving DecidableEq, Repr

/-- `app.models.flow.FieldType`. -/
inductive FieldType where
  | TEXT | NUMBER | DATE | ATTACHMENT | CHECKBOX
deriving DecidableEq, Repr

/-- `app.models.flow.FormField`. -/
structure FormField where
  id : Nat
  stage_id : Nat
  order : Int
  field_type : FieldType
  label : String
  required : Bool
deriving DecidableEq, Repr

/-- `app.models.flow.Stage`; `form_fields` is the ORM relationship (all
`FormField` rows with `stage_id` = this stage's id). -/
structure Stage where
  id : Nat
  flow_template_id : Nat
  order : Int
  name : String
  assignment_type : AssignmentType
  assignment_target_id : Option Nat
  is_approval_stage : Bool
  form_fields : List FormField
deriving DecidableEq, Repr

/-- `app.models.flow.FlowRole`; `users` is the ordered member list the ORM
relationship yields (the source indexes it with `role.users[0]`). -/
structure FlowRole where
  id : Nat
  flow_template_id : Nat
  name : String
  users : List User
deriving DecidableEq, Repr

/-- `app.models.flow.FlowTemplate`; `stages` is the ORM relationship. -/
structure FlowTemplate where
  id : Nat
  name : String
  is_active : Bool
  stages : List Stage
deriving DecidableEq, Repr

/-- `flowstatus` enum of migration ca6c0929fdc0. -/
inductive FlowStatus where
  | ACTIVE | COMPLETED | STALLED | TERMINATED
deriving DecidableEq, Repr

/-- `taskstatus` enum of migration ca6c0929fdc0. -/
inductive TaskStatus where
  | PENDING | COMPLETED | REJECTED
deriving DecidableEq, Repr

/-- `activitytype` enum of migration ca6c0929fdc0. -/
inductive ActivityType where
  | FLOW_STARTED | STAGE_COMPLETED | STAGE_REJECTED | TASK_ASSIGNED
  | TASK_REASSIGNED | FLOW_COMPLETED | FLOW_TERMINATED
deriving DecidableEq, Repr

/-- `flow_instances` row (migration ca6c0929fdc0 / router field names). -/
structure FlowInstance where
  id : Nat
  flow_template_id : Nat
  title : String
  description : Option String
  status : FlowStatus
  current_stage_id : Option Nat
  current_assignee_id : Option Nat
  initiator_id : Nat
  started_at : ℚ
  completed_at : Option ℚ
deriving DecidableEq, Repr

/-- `task_instances` row (migration ca6c0929fdc0). -/
structure TaskInstance where
  id : Nat
  flow_instance_id : Nat
  stage_id : Nat
  assignee_id : Nat
  status : TaskStatus
  assigned_at : ℚ
  completed_at : Option ℚ
deriving DecidableEq, Repr

/-- `form_data_values` row (migration ca6c0929fdc0). -/
structure FormDataValue where
  id : Nat
  task_instance_id : Nat
  form_field_id : Nat
  value : JsonValue
deriving DecidableEq, Repr

/-- `activity_logs` row (migration ca6c0929fdc0); `details` models the JSON
dict the routers build. -/
structure ActivityLog where
  id : Nat
  flow_instance_id : Nat
  activity_type : ActivityType
  actor_id : Option Nat
  details : List (String × JsonValue)
deriving DecidableEq, Repr

/-- The durable store the two engine operations run against: the user / role /
template tables (written only by out-of-scope CRUD) plus the four execution
tables, with one autoincrement counter per execution table. -/
structure Store where
  users : List User
  roles : List FlowRole
  templates : List FlowTemplate
  flows : List FlowInstance
  tasks : List TaskInstance
  form_data_values : List FormDataValue
  activity_logs : List ActivityLog
  next_flow_id : Nat
  next_task_id : Nat
  next_fdv_id : Nat
  next_log_id : Nat
deriving DecidableEq, Repr

/-- All `stages` table rows (the routers query stages through template
relationships; `complete_task` reaches the task's stage via the
`TaskInstance.stage` relationship, i.e. the row with id = `task.stage_id`). -/
def Store.stagesTable (db : Store) : List Stage :=
  (db.templates.map FlowTemplate.stages).flatten

/-! ### `services/task_assignment.py` -/

/-- `resolve_assignee(stage, initiator, db)` from
`services/task_assignment.py`.  Note the source guards each target with
Python truthiness (`if not stage.assignment_target_id`), so a target id of 0
is treated like a missing one; `if not role or not role.users` likewise makes
an empty member list unresolvable, and `role.users[0]` is the head of the
relationship list. -/
def resolve_assignee (stage : Stage) (initiator : User) (db : Store) : Option User :=
  match stage.assignment_type with
  | .USER =>
      match stage.assignment_target_id with
      | none => none
      | some t => if t = 0 then none else db.users.find? (fun u => u.id == t)
  | .ROLE =>
      match stage.assignment_target_id with
      | none => none
      | some t =>
          if t = 0 then none
          else
            match db.roles.find? (fun r => r.id == t) with
            | none => none
            | some role => role.users.head?
  | .INITIATOR => some initiator
  | .EXTERNAL => none

/-- `get_next_stage(flow_template, current_stage)`: first stage of the
template whose order is `current_stage.order + 1` (after the redundant
empty-list guard of the source). -/
def get_next_stage (flow_template : FlowTemplate) (current_stage : Stage) : Option Stage :=
  if flow_template.stages.isEmpty then none
  else flow_template.stages.find? (fun s => s.order == current_stage.order + 1)

/-- Python's `min(xs, key=lambda s: s.order)`: the earliest element with the
minimal order (Python `min` keeps the first of equal keys). -/
def minByOrder : List Stage → Option Stage
  | [] => none
  | x :: xs => some (xs.foldl (fun acc s => if s.order < acc.order then s else acc) x)

/-- `get_first_stage(flow_template)`: stage with order 1, else the
minimum-order stage, `none` on an empty template. -/
def get_first_stage (flow_template : FlowTemplate) : Option Stage :=
  if flow_template.stages.isEmpty then none
  else
    match flow_template.stages.find? (fun s => s.order == 1) with
    | some s => some s
    | none => minByOrder flow_template.stages

/-! ### Read projection: elapsed time -/

/-- Python's `int(x)` on a float/number of seconds: truncation toward zero. -/
def pyIntTrunc (q : ℚ) : ℤ :=
  if 0 ≤ q then ⌊q⌋ else ⌈q⌉

/-- `calculate_elapsed_time(started_at, completed_at)` from
`routers/flow_instances.py` (the copy in `routers/tasks.py` is the same
arithmetic): `int((completed_at - started_at).total_seconds())` when
`completed_at` is set (a datetime is always truthy), else
`int((now - started_at).total_seconds())`; `now` is the clock reading, passed
explicitly here. -/
def calculate_elapsed_time (started_at : ℚ) (completed_at : Option ℚ) (now : ℚ) : ℤ :=
  match completed_at with
  | some c => pyIntTrunc (c - started_at)
  | none => pyIntTrunc (now - started_at)

/-! ### Engine operations

Each HTTP handler runs against one SQLAlchemy session and commits exactly once
at its end; every failure raises before that commit.  The per-request session
(`core.dependencies.get_db`, not present under `src/`) is modelled from the
spec: an operation either commits fully (`Except.ok` carries the new store) or
fails and leaves prior state untouched (`Except.error` — the session's pending
mutations are discarded). -/

/-- The error taxonomy of the two engine operations (the `HTTPException`s the
handlers raise).  `BrokenReference` stands for a dangling foreign key met while
traversing ORM relationships; it is unreachable when the store is
referentially intact. -/
inductive Err where
  | TemplateNotFound | TemplateInactive | NoStagesDefined | AssigneeUnresolvable
  | TaskNotFound | NotAssignee | TaskAlreadyResolved | MissingRequiredField
  | UnknownField | BrokenReference
deriving DecidableEq, Repr

/-- `create_flow_instance` from `routers/flow_instances.py` (operation
`StartFlow`).  `current_user` is the authenticated initiator, `now` the clock
reading used for `datetime.now(timezone.utc)`. -/
def create_flow_instance (db : Store) (flow_template_id : Nat) (title : String)
    (description : Option String) (current_user : User) (now : ℚ) : Except Err Store :=
  match db.templates.find? (fun t => t.id == flow_template_id) with
  | none => .error .TemplateNotFound
  | some flow_template =>
      if !flow_template.is_active then .error .TemplateInactive
      else
        match get_first_stage flow_template with
        | none => .error .NoStagesDefined
        | some first_stage =>
            match resolve_assignee first_stage current_user db with
            | none => .error .AssigneeUnresolvable
            | some first_assignee =>
                let flow_instance : FlowInstance :=
                  { id := db.next_flow_id
                    flow_template_id := flow_template.id
                    title := title
                    description := description
                    status := .ACTIVE
                    current_stage_id := some first_stage.id
                    current_assignee_id := some first_assignee.id
                    initiator_id := current_user.id
                    started_at := now
                    completed_at := none }
                let first_task : TaskInstance :=
                  { id := db.next_task_id
                    flow_instance_id := flow_instance.id
                    stage_id := first_stage.id
                    assignee_id := first_assignee.id
                    status := .PENDING
                    assigned_at := now
                    completed_at := none }
                let log : ActivityLog :=
                  { id := db.next_log_id
                    flow_instance_id := flow_instance.id
                    activity_type := .FLOW_STARTED
                    actor_id := some current_user.id
                    details :=
                      [("flow_template_name", .str flow_template.name),
                       ("first_stage_name", .str first_stage.name),
                       ("first_assignee_email", .str first_assignee.email)] }
                .ok { db with
                        flows := db.flows ++ [flow_instance]
                        tasks := db.tasks ++ [first_task]
                        activity_logs := db.activity_logs ++ [log]
                        next_flow_id := db.next_flow_id + 1
                        next_task_id := db.next_task_id + 1
                        next_log_id := db.next_log_id + 1 }

/-- The `FormDataValue` rows `complete_task` adds: one per supplied
`(field_id, value)` pair, in submission order, ids from the autoincrement. -/
def mkFormDataValues (start_id : Nat) (task_instance_id : Nat) :
    List (Nat × JsonValue) → List FormDataValue
  | [] => []
  | p :: rest =>
      { id := start_id
        task_instance_id := task_instance_id
        form_field_id := p.1
        value := p.2 } :: mkFormDataValues (start_id + 1) task_instance_id rest

/-- Step 4 of `complete_task`: `task.status = COMPLETED`,
`task.completed_at = now` on the loaded row. -/
def markTaskCompleted (task_id : Nat) (now : ℚ) (t : TaskInstance) : TaskInstance :=
  if t.id == task_id then { t with status := .COMPLETED, completed_at := some now } else t

/-- Step 7a of `complete_task` (a next stage exists): the committed store —
form values saved, prior task marked completed, one new PENDING task for
`next_stage`/`next_assignee`, `FlowInstance.current_stage_id` /
`current_assignee_id` moved forward, one STAGE_COMPLETED activity entry. -/
def completeAdvance (db : Store) (task_id : Nat) (form_data : List (Nat × JsonValue))
    (current_user : User) (now : ℚ) (task : TaskInstance) (flow_instance : FlowInstance)
    (stage next_stage : Stage) (next_assignee : User) : Store :=
  { db with
      tasks := db.tasks.map (markTaskCompleted task_id now) ++
        [{ id := db.next_task_id
           flow_instance_id := flow_instance.id
           stage_id := next_stage.id
           assignee_id := next_assignee.id
           status := .PENDING
           assigned_at := now
           completed_at := none }]
      flows := db.flows.map (fun f =>
        if f.id == flow_instance.id then
          { f with
              current_stage_id := some next_stage.id
              current_assignee_id := some next_assignee.id }
        else f)
      form_data_values := db.form_data_values ++ mkFormDataValues db.next_fdv_id task.id form_data
      activity_logs := db.activity_logs ++
        [{ id := db.next_log_id
           flow_instance_id := flow_instance.id
           activity_type := .STAGE_COMPLETED
           actor_id := some current_user.id
           details :=
             [("stage_name", .str stage.name),
              ("stage_id", .num stage.id),
              ("next_stage_name", .str next_stage.name),
              ("next_stage_id", .num next_stage.id),
              ("next_assignee_email", .str next_assignee.email)] }]
      next_task_id := db.next_task_id + 1
      next_fdv_id := db.next_fdv_id + form_data.length
      next_log_id := db.next_log_id + 1 }

/-- Step 7b of `complete_task` (no next stage): the committed store — form
values saved, prior task marked completed, the flow instance set to
COMPLETED with `completed_at = now` and both current pointers nulled, one
FLOW_COMPLETED activity entry. -/
def completeFinish (db : Store) (task_id : Nat) (form_data : List (Nat × JsonValue))
    (current_user : User) (now : ℚ) (task : TaskInstance) (flow_instance : FlowInstance)
    (stage : Stage) : Store :=
  { db with
      tasks := db.tasks.map (markTaskCompleted task_id now)
      flows := db.flows.map (fun f =>
        if f.id == flow_instance.id then
          { f with
              status := .COMPLETED
              completed_at := some now
              current_stage_id := none
              current_assignee_id := none }
        else f)
      form_data_values := db.form_data_values ++ mkFormDataValues db.next_fdv_id task.id form_data
      activity_logs := db.activity_logs ++
        [{ id := db.next_log_id
           flow_instance_id := flow_instance.id
           activity_type := .FLOW_COMPLETED
           actor_id := some current_user.id
           details :=
             [("final_stage_name", .str stage.name),
              ("final_stage_id", .num stage.id)] }]
      next_fdv_id := db.next_fdv_id + form_data.length
      next_log_id := db.next_log_id + 1 }

/-- `complete_task` from `routers/tasks.py` (operation `CompleteTask`).
`form_data` is the parsed request dict as an association list (a Python dict,
so its keys are distinct at the call boundary).  The source interleaves the
per-field stage-membership check with `db.add(FormDataValue(...))` in one
loop; since an error discards the whole session, checking all supplied fields
first and then building the rows is extensionally the same transaction, and
the membership test against the `form_fields` table filtered by
`(id == field_id, stage_id == stage.id)` is the search of
`stage.form_fields` below. -/
def complete_task (db : Store) (task_id : Nat) (form_data : List (Nat × JsonValue))
    (current_user : User) (now : ℚ) : Except Err Store :=
  match db.tasks.find? (fun t => t.id == task_id) with
  | none => .error .TaskNotFound
  | some task =>
      if task.assignee_id ≠ current_user.id then .error .NotAssignee
      else if task.status ≠ TaskStatus.PENDING then .error .TaskAlreadyResolved
      else
        match db.stagesTable.find? (fun s => s.id == task.stage_id) with
        | none => .error .BrokenReference
        | some stage =>
            if stage.form_fields.any
                (fun f => f.required && !(form_data.any (fun p => p.1 == f.id))) then
              .error .MissingRequiredField
            else if form_data.any (fun p =>
                !(stage.form_fields.any (fun f => f.id == p.1 && f.stage_id == stage.id))) then
              .error .UnknownField
            else
              match db.flows.find? (fun f => f.id == task.flow_instance_id) with
              | none => .error .BrokenReference
              | some flow_instance =>
                  match db.templates.find? (fun t => t.id == flow_instance.flow_template_id) with
                  | none => .error .BrokenReference
                  | some flow_template =>
                      match db.users.find? (fun u => u.id == flow_instance.initiator_id) with
                      | none => .error .BrokenReference
                      | some initiator =>
                          match get_next_stage flow_template stage with
                          | some next_stage =>
                              match resolve_assignee next_stage initiator db with
                              | none => .error .AssigneeUnresolvable
                              | some next_assignee =>
                                  .ok (completeAdvance db task_id form_data current_user now
                                    task flow_instance stage next_stage next_assignee)
                          | none =>
                              .ok (completeFinish db task_id form_data current_user now
                                task flow_instance stage)

/-- Modelled from the spec: the per-request database session wrapper
(`core.dependencies.get_db`, absent from `src/`) commits on handler success
and discards the session's pending mutations when the handler raises — "an
operation either commits fully or fails and leaves prior state untouched".
This is the store a `CompleteTask` request actually leaves behind. -/
def complete_task_committed (db : Store) (task_id : Nat)
    (form_data : List (Nat × JsonValue)) (current_user : User) (now : ℚ) : Store :=
  match complete_task db task_id form_data current_user now with
  | .ok db' => db'
  | .error _ => db

/-! ### Concrete fixtures (used by witnesses and counterexamples) -/

def exUser0 : User := { id := 0, email := "zero@example.com" }

def exUser1 : User := { id := 1, email := "alice@example.com" }

def exUser2 : User := { id := 2, email := "bob@example.com" }

def exUser3 : User := { id := 3, email := "carol@example.com" }

def exUser7 : User := { id := 7, email := "dave@example.com" }

def exUser9 : User := { id := 9, email := "erin@example.com" }

def exFieldNotes : FormField :=
  { id := 101, stage_id := 11, order := 1, field_type := .TEXT
    label := "Notes", required := true }

def exStageDraft : Stage :=
  { id := 11, flow_template_id := 1, order := 1, name := "Draft"
    assignment_type := .USER, assignment_target_id := some 1
    is_approval_stage := false, form_fields := [exFieldNotes] }

def exStageReview : Stage :=
  { id := 12, flow_template_id := 1, order := 2, name := "Review"
    assignment_type := .USER, assignment_target_id := some 2
    is_approval_stage := false, form_fields := [] }

def exTemplateA : FlowTemplate :=
  { id := 1, name := "Two step approval", is_active := true
    stages := [exStageDraft, exStageReview] }

def exStageSolo : Stage :=
  { id := 21, flow_template_id := 2, order := 1, name := "Only step"
    assignment_type := .USER, assignment_target_id := some 1
    is_approval_stage := false, form_fields := [] }

def exTemplateB : FlowTemplate :=
  { id := 2, name := "One step", is_active := true, stages := [exStageSolo] }

def exStageFirstC : Stage :=
  { id := 31, flow_template_id := 3, order := 1, name := "Prepare"
    assignment_type := .USER, assignment_target_id := some 1
    is_approval_stage := false, form_fields := [] }

def exStageExternal : Stage :=
  { id := 32, flow_template_id := 3, order := 2, name := "Outside party"
    assignment_type := .EXTERNAL, assignment_target_id := none
    is_approval_stage := false, form_fields := [] }

def exTemplateC : FlowTemplate :=
  { id := 3, name := "Ends at external", is_active := true
    stages := [exStageFirstC, exStageExternal] }

def exRole5 : FlowRole :=
  { id := 5, flow_template_id := 1, name := "Reviewers"
    users := [exUser7, exUser3, exUser9] }

def exStageRole : Stage :=
  { id := 41, flow_template_id := 1, order := 2, name := "Role review"
    assignment_type := .ROLE, assignment_target_id := some 5
    is_approval_stage := false, form_fields := [] }

def exStageUserZero : Stage :=
  { id := 51, flow_template_id := 9, order := 1, name := "Zero target"
    assignment_type := .USER, assignment_target_id := some 0
    is_approval_stage := false, form_fields := [] }

/-- Store with user id 0 present, for the target-id-0 counterexample. -/
def exStoreZero : Store :=
  { users := [exUser0], roles := [], templates := [], flows := [], tasks := []
    form_data_values := [], activity_logs := []
    next_flow_id := 1, next_task_id := 1, next_fdv_id := 1, next_log_id := 1 }

/-- Store before any flow is started. -/
def exStoreFresh : Store :=
  { users := [exUser1, exUser2], roles := []
    templates := [exTemplateA, exTemplateB, exTemplateC]
    flows := [], tasks := [], form_data_values := [], activity_logs := []
    next_flow_id := 1, next_task_id := 1, next_fdv_id := 1, next_log_id := 1 }

def exFlowA : FlowInstance :=
  { id := 1, flow_template_id := 1, title := "Ship the feature"
    description := none, status := .ACTIVE, current_stage_id := some 11
    current_assignee_id := some 1, initiator_id := 1
    started_at := 0, completed_at := none }

def exTaskA : TaskInstance :=
  { id := 1, flow_instance_id := 1, stage_id := 11, assignee_id := 1
    status := .PENDING, assigned_at := 0, completed_at := none }

/-- Store with one active flow on the two-stage template, its Draft task
pending for user 1. -/
def exStoreA : Store :=
  { exStoreFresh with
    flows := [exFlowA]
    tasks := [exTaskA]
    next_flow_id := 2
    next_task_id := 2 }

def exFlowB : FlowInstance :=
  { id := 1, flow_template_id := 2, title := "One and done"
    description := none, status := .ACTIVE, current_stage_id := some 21
    current_assignee_id := some 1, initiator_id := 1
    started_at := 0, completed_at := none }

def exTaskB : TaskInstance :=
  { id := 1, flow_instance_id := 1, stage_id := 21, assignee_id := 1
    status := .PENDING, assigned_at := 0, completed_at := none }

/-- Store with one active flow on the one-stage template. -/
def exStoreB : Store :=
  { exStoreFresh with
    flows := [exFlowB]
    tasks := [exTaskB]
    next_flow_id := 2
    next_task_id := 2 }

def exFlowC : FlowInstance :=
  { id := 1, flow_template_id := 3, title := "Will get stuck"
    description := none, status := .ACTIVE, current_stage_id := some 31
    current_assignee_id := some 1, initiator_id := 1
    started_at := 0, completed_at := none }

def exTaskC : TaskInstance :=
  { id := 1, flow_instance_id := 1, stage_id := 31, assignee_id := 1
    status := .PENDING, assigned_at := 0, completed_at := none }

/-- Store whose next stage has an EXTERNAL (unresolvable) assignment. -/
def exStoreC : Store :=
  { exStoreFresh with
    flows := [exFlowC]
    tasks := [exTaskC]
    next_flow_id := 2
    next_task_id := 2 }

/-- Two stores sharing the role table (members 7, 3, 9) but differing in
every other table, for the determinism claim. -/
def exStoreRole1 : Store :=
  { users := [exUser7, exUser3, exUser9], roles := [exRole5]
    templates := [exTemplateA], flows := [], tasks := []
    form_data_values := [], activity_logs := []
    next_flow_id := 1, next_task_id := 1, next_fdv_id := 1, next_log_id := 1 }

def exStoreRole2 : Store :=
  { users := [exUser9], roles := [exRole5], templates := [], flows := []
    tasks := [], form_data_values := [], activity_logs := []
    next_flow_id := 7, next_task_id := 7, next_fdv_id := 7, next_log_id := 7 }

/-! ### Reference definitions written from the spec's words (for the
refinement claims about `resolve`) -/

/-- The claim's reference definition of `resolve(stage, initiator)`, written
from the spec's words alone: USER looks the target id up directly
(`NotResolvable` when the target id is absent or no such user exists); ROLE
takes the first member of the role with the target id (`NotResolvable` when
the target id is absent, the role does not exist, or it has no members);
INITIATOR returns the initiator unconditionally; EXTERNAL is always
`NotResolvable`. -/
def resolve_spec (stage : Stage) (initiator : User) (db : Store) : Option User :=
  match stage.assignment_type with
  | .USER =>
      match stage.assignment_target_id with
      | none => none
      | some t => db.users.find? (fun u => u.id == t)
  | .ROLE =>
      match stage.assignment_target_id with
      | none => none
      | some t =>
          match db.roles.find? (fun r => r.id == t) with
          | none => none
          | some role => role.users.head?
  | .INITIATOR => some initiator
  | .EXTERNAL => none

/-- The reference definition amended by what the code actually does: a target
id equal to 0 is additionally treated as absent (the source tests the target
with Python truthiness, `if not stage.assignment_target_id`). -/
def resolve_spec_amended (stage : Stage) (initiator : User) (db : Store) : Option User :=
  match stage.assignment_type with
  | .USER =>
      match stage.assignment_target_id with
      | none => none
      | some t => if t = 0 then none else db.users.find? (fun u => u.id == t)
  | .ROLE =>
      match stage.assignment_target_id with
      | none => none
      | some t =>
          if t = 0 then none
          else
            match db.roles.find? (fun r => r.id == t) with
            | none => none
            | some role => role.users.head?
  | .INITIATOR => some initiator
  | .EXTERNAL => none

/-! ### Reachability -/

/-- A store holding a fixed configuration (users, roles, templates — written
only by the out-of-scope CRUD routers) and no execution state at all: no flow
instances, tasks, form values or activity entries. -/
def Store.initial (users : List User) (roles : List FlowRole)
    (templates : List FlowTemplate) : Store :=
  { users := users, roles := roles, templates := templates, flows := []
    tasks := [], form_data_values := [], activity_logs := []
    next_flow_id := 1, next_task_id := 1, next_fdv_id := 1, next_log_id := 1 }

/-- One committed engine operation.  `StartFlow` and `CompleteTask` are the
only writers of the execution tables; a failed request commits nothing, so
only `.ok` outcomes move the store.  `CompleteTask`'s `form_data` arrives as
a parsed JSON object keyed by field id, hence its keys are distinct. -/
inductive Step : Store → Store → Prop where
  | start (db db' : Store) (flow_template_id : Nat) (title : String)
      (description : Option String) (current_user : User) (now : ℚ)
      (h : create_flow_instance db flow_template_id title description current_user now = .ok db') :
      Step db db'
  | complete (db db' : Store) (task_id : Nat) (form_data : List (Nat × JsonValue))
      (current_user : User) (now : ℚ)
      (hkeys : (form_data.map Prod.fst).Nodup)
      (h : complete_task db task_id form_data current_user now = .ok db') :
      Step db db'

/-- Stores reachable from an execution-empty store over some fixed
configuration by any sequence of committed `StartFlow` / `CompleteTask`
operations. -/
def Reachable (db : Store) : Prop :=
  ∃ users roles templates,
    Relation.ReflTransGen Step (Store.initial users roles templates) db

/-- The PENDING task instances of one flow instance. -/
def pendingFor (db : Store) (flow_instance_id : Nat) : List TaskInstance :=
  db.tasks.filter (fun t =>
    t.flow_instance_id == flow_instance_id && decide (t.status = TaskStatus.PENDING))

/-- The FormDataValue rows of one (task instance, form field) pair. -/
def fdvsFor (db : Store) (task_instance_id form_field_id : Nat) : List FormDataValue :=
  db.form_data_values.filter (fun v =>
    v.task_instance_id == task_instance_id && v.form_field_id == form_field_id)

/-- The inductive invariant of the execution store, strengthened enough to be
preserved by both operations: primary keys are fresh and duplicate-free,
tasks reference existing flows, a flow's status / stage pointer /
`completed_at` agree, every flow has at most one PENDING task (none once it
is finished), and form values belong to completed tasks, at most one per
(task, field) pair. -/
structure Inv (db : Store) : Prop where
  flow_ids_lt : ∀ f ∈ db.flows, f.id < db.next_flow_id
  flow_ids_nodup : (db.flows.map FlowInstance.id).Nodup
  task_ids_lt : ∀ t ∈ db.tasks, t.id < db.next_task_id
  task_ids_nodup : (db.tasks.map TaskInstance.id).Nodup
  task_flow_exists : ∀ t ∈ db.tasks, ∃ f ∈ db.flows, f.id = t.flow_instance_id
  status_range : ∀ f ∈ db.flows, f.status = .ACTIVE ∨ f.status = .COMPLETED
  stage_iff_active : ∀ f ∈ db.flows, f.current_stage_id.isSome ↔ f.status = .ACTIVE
  completed_at_iff : ∀ f ∈ db.flows,
    f.completed_at.isSome ↔ (f.status = .COMPLETED ∨ f.status = .TERMINATED)
  pending_le_one : ∀ f ∈ db.flows, (pendingFor db f.id).length ≤ 1
  pending_none_done : ∀ f ∈ db.flows,
    f.status = .COMPLETED ∨ f.status = .TERMINATED → pendingFor db f.id = []
  fdv_task : ∀ v ∈ db.form_data_values,
    ∃ t ∈ db.tasks, t.id = v.task_instance_id ∧ t.status = .COMPLETED
  fdv_unique : ∀ tid fid, (fdvsFor db tid fid).length ≤ 1

/-- Modelled from the spec: the committed outcome of a `StartFlow` request,
like `complete_task_committed` (in `create_flow_instance` every failure is
raised before anything is added to the session, so a failed request leaves
the store as it was). -/
def create_flow_instance_committed (db : Store) (flow_template_id : Nat) (title : String)
    (description : Option String) (current_user : User) (now : ℚ) : Store :=
  match create_flow_instance db flow_template_id title description current_user now with
  | .ok db' => db'
  | .error _ => db

/-- The flow instance created by the committed `StartFlow` below. -/
def exFlowStarted : FlowInstance :=
  { id := 1, flow_template_id := 1, title := "Ship the feature", description := none, status := .ACTIVE, current_stage_id := some 11, current_assignee_id := some 1, initiator_id := 1, started_at := 0, completed_at := none }

/-- `exStoreFresh` after the committed `StartFlow` of the two-stage template
(this is `create_flow_instance exStoreFresh 1 "Ship the feature" none exUser1 0`). -/
def exStoreStarted : Store :=
  { exStoreFresh with
    flows := [exFlowStarted]
    tasks := [{ id := 1, flow_instance_id := 1, stage_id := 11, assignee_id := 1, status := .PENDING, assigned_at := 0, completed_at := none }]
    activity_logs := [{ id := 1, flow_instance_id := 1, activity_type := .FLOW_STARTED, actor_id := some 1, details := [("flow_template_name", .str "Two step approval"), ("first_stage_name", .str "Draft"), ("first_assignee_email", .str "alice@example.com")] }]
    next_flow_id := 2
    next_task_id := 2
    next_log_id := 2 }

/-- `exStoreStarted` after the committed `CompleteTask` of its Draft task
(this is `complete_task exStoreStarted 1 [(101, .str "done")] exUser1 1`). -/
def exStoreDone : Store :=
  { exStoreFresh with
    flows := [{ id := 1, flow_template_id := 1, title := "Ship the feature", description := none, status := .ACTIVE, current_stage_id := some 12, current_assignee_id := some 2, initiator_id := 1, started_at := 0, completed_at := none }]
    tasks := [{ id := 1, flow_instance_id := 1, stage_id := 11, assignee_id := 1, status := .COMPLETED, assigned_at := 0, completed_at := some 1 }, { id := 2, flow_instance_id := 1, stage_id := 12, assignee_id := 2, status := .PENDING, assigned_at := 1, completed_at := none }]
    form_data_values := [{ id := 1, task_instance_id := 1, form_field_id := 101, value := .str "done" }]
    activity_logs := [{ id := 1, flow_instance_id := 1, activity_type := .FLOW_STARTED, actor_id := some 1, details := [("flow_template_name", .str "Two step approval"), ("first_stage_name", .str "Draft"), ("first_assignee_email", .str "alice@example.com")] }, { id := 2, flow_instance_id := 1, activity_type := .STAGE_COMPLETED, actor_id := some 1, details := [("stage_name", .str "Draft"), ("stage_id", .num 11), ("next_stage_name", .str "Review"), ("next_stage_id", .num 12), ("next_assignee_email", .str "bob@example.com")] }]
    next_flow_id := 2
    next_task_id := 3
    next_fdv_id := 2
    next_log_id := 3 }

/-! ## Theorems -/

/-! ### Helper lemmas -/

lemma minByOrder_foldl_mem (xs : List Stage) (acc : Stage) :
    xs.foldl (fun a s => if s.order < a.order then s else a) acc = acc ∨
    xs.foldl (fun a s => if s.order < a.order then s else a) acc ∈ xs := by
  induction xs generalizing acc with
  | nil => left; rfl
  | cons x xs ih =>
    simp only [List.foldl_cons]
    rcases ih (if x.order < acc.order then x else acc) with h | h
    · rw [h]
      split
      · right; exact List.mem_cons_self _ _
      · left; rfl
    · right; exact List.mem_cons_of_mem _ h

lemma minByOrder_foldl_le (xs : List Stage) (acc : Stage) :
    (xs.foldl (fun a s => if s.order < a.order then s else a) acc).order ≤ acc.order ∧
    ∀ y ∈ xs, (xs.foldl (fun a s => if s.order < a.order then s else a) acc).order ≤ y.order := by
  induction xs generalizing acc with
  | nil => exact ⟨le_refl _, by simp⟩
  | cons x xs ih =>
    simp only [List.foldl_cons]
    obtain ⟨h1, h2⟩ := ih (if x.order < acc.order then x else acc)
    constructor
    · refine le_trans h1 ?_
      split
      · exact le_of_lt (by assumption)
      · exact le_refl _
    · intro y hy
      rcases List.mem_cons.mp hy with rfl | hy
      · refine le_trans h1 ?_
        split
        · exact le_refl _
        · exact le_of_not_lt (by assumption)
      · exact h2 y hy

lemma pyIntTrunc_mono {q r : ℚ} (h : q ≤ r) : pyIntTrunc q ≤ pyIntTrunc r := by
  unfold pyIntTrunc
  by_cases hq : 0 ≤ q
  · rw [if_pos hq, if_pos (le_trans hq h)]
    exact Int.floor_mono h
  · by_cases hr : 0 ≤ r
    · rw [if_neg hq, if_pos hr]
      have h1 : ⌈q⌉ ≤ ⌈(0 : ℚ)⌉ := Int.ceil_mono (not_le.mp hq).le
      have h2 : (0 : ℤ) ≤ ⌊r⌋ := Int.floor_nonneg.mpr hr
      simp only [Int.ceil_zero] at h1
      omega
    · rw [if_neg hq, if_neg hr]
      exact Int.ceil_mono h

/-! ### Claim C6: the stage sequencer -/

/-- Claim C6: `nextStage` returns a stage of the template whose order is
`currentStage.order + 1`, and `none` exactly when no stage of that order
exists; `firstStage` returns a stage of order 1 when one exists, otherwise a
minimum-order stage, and `none` exactly when the template has no stages.
(Both are functions of the template and stage alone by construction: neither
takes the store.) -/
theorem claim_C6_stage_sequencer :
    (∀ (t : FlowTemplate) (cur s : Stage), get_next_stage t cur = some s →
        s ∈ t.stages ∧ s.order = cur.order + 1) ∧
    (∀ (t : FlowTemplate) (cur : Stage), get_next_stage t cur = none ↔
        ∀ s ∈ t.stages, s.order ≠ cur.order + 1) ∧
    (∀ t : FlowTemplate, get_first_stage t = none ↔ t.stages = []) ∧
    (∀ (t : FlowTemplate) (s : Stage), get_first_stage t = some s →
        s ∈ t.stages ∧
        ((∃ s1 ∈ t.stages, s1.order = 1) → s.order = 1) ∧
        ((∀ s1 ∈ t.stages, s1.order ≠ 1) → ∀ s1 ∈ t.stages, s.order ≤ s1.order)) := by
  refine ⟨?_, ?_, ?_, ?_⟩
  · intro t cur s h
    unfold get_next_stage at h
    split at h
    · exact absurd h (by simp)
    · exact ⟨List.mem_of_find?_eq_some h, by simpa using List.find?_some h⟩
  · intro t cur
    unfold get_next_stage
    split
    · have : t.stages = [] := by simpa [List.isEmpty_iff] using (by assumption : t.stages.isEmpty = true)
      simp [this]
    · simp [List.find?_eq_none]
  · intro t
    unfold get_first_stage
    by_cases he : t.stages.isEmpty = true
    · simp [he, List.isEmpty_iff.mp he]
    · have hne : t.stages ≠ [] := by
        intro h0
        exact he (by simp [h0])
      rw [if_neg he]
      rcases hf : t.stages.find? (fun s => s.order == 1) with _ | s
      · rw [hf]
        rcases hs : t.stages with _ | ⟨x, xs⟩
        · exact absurd hs hne
        · simp [minByOrder, hs, hne]
      · rw [hf]
        simp [hne]
  · intro t s h
    unfold get_first_stage at h
    by_cases he : t.stages.isEmpty = true
    · rw [if_pos he] at h
      exact absurd h (by simp)
    · rw [if_neg he] at h
      rcases hf : t.stages.find? (fun s => s.order == 1) with _ | s1
      · rw [hf] at h
        rcases hs : t.stages with _ | ⟨x, xs⟩
        · rw [hs] at he
          exact absurd rfl he
        · rw [hs] at h
          simp only [minByOrder, Option.some.injEq] at h
          have hmem := minByOrder_foldl_mem xs x
          have hle := minByOrder_foldl_le xs x
          rw [h] at hmem hle
          refine ⟨?_, ?_, ?_⟩
          · rcases hmem with h1 | h1
            · rw [h1]; exact List.mem_cons_self _ _
            · exact List.mem_cons_of_mem _ h1
          · rintro ⟨s1, hs1, hord⟩
            rw [← hs] at hs1
            have hn := List.find?_eq_none.mp hf s1 hs1
            simp [hord] at hn
          · intro _ s1 hs1
            rcases List.mem_cons.mp hs1 with rfl | hs1'
            · exact hle.1
            · exact hle.2 _ hs1'
      · rw [hf] at h
        have hs1eq : s1 = s := Option.some.inj h
        have hmem : s ∈ t.stages := hs1eq ▸ List.mem_of_find?_eq_some hf
        have hord : s.order = 1 := by
          have hp := List.find?_some hf
          rw [hs1eq] at hp
          simpa using hp
        exact ⟨hmem, fun _ => hord, fun hno => absurd hord (hno s hmem)⟩

/-- Claim C6, witness: in the two-stage template, the stage after Draft is
Review — a member of the template with order 2 = 1 + 1. -/
theorem claim_C6_witness :
    exStageReview ∈ exTemplateA.stages ∧ exStageReview.order = exStageDraft.order + 1 :=
  claim_C6_stage_sequencer.1 exTemplateA exStageDraft exStageReview (by decide)

/-! ### Claim C7: the assignee resolver against its reference definition -/

/-- Claim C7, counterexample: with a stage whose `assignment_target_id` is 0
and a user table containing the user with id 0, the code resolves to `none`
(the source tests the target with Python truthiness, so 0 counts as absent)
while the claim's reference definition returns that user. -/
theorem claim_C7_counterexample :
    resolve_assignee exStageUserZero exUser1 exStoreZero = none ∧
    resolve_spec exStageUserZero exUser1 exStoreZero = some exUser0 := by
  decide

/-- Claim C7, amended: `resolve_assignee` agrees everywhere with the
reference definition amended to treat a target id of 0 as absent. -/
theorem claim_C7_resolve_matches_amended_spec :
    ∀ (stage : Stage) (initiator : User) (db : Store),
      resolve_assignee stage initiator db = resolve_spec_amended stage initiator db := by
  intro stage i db
  rfl

/-! ### Claim C8: determinism of the resolver -/

/-- Claim C8: `resolve_assignee` is a pure function — two calls on the same
inputs agree — and for a ROLE stage its result depends only on the role
row found for the stage's target, so repeated calls under unchanged role
membership return the same user. -/
theorem claim_C8_resolve_deterministic :
    (∀ (stage : Stage) (initiator : User) (db : Store),
        resolve_assignee stage initiator db = resolve_assignee stage initiator db) ∧
    (∀ (stage : Stage) (initiator : User) (db1 db2 : Store) (t : Nat),
        stage.assignment_type = .ROLE → stage.assignment_target_id = some t →
        db1.roles.find? (fun r => r.id == t) = db2.roles.find? (fun r => r.id == t) →
        resolve_assignee stage initiator db1 = resolve_assignee stage initiator db2) := by
  refine ⟨fun _ _ _ => rfl, ?_⟩
  intro stage i db1 db2 t hty hta hrole
  unfold resolve_assignee
  rw [hty, hta]
  simp only [hrole]

/-- Claim C8, witness: a ROLE stage over a role with members 7, 3, 9 resolves
identically in two stores that share only that role row. -/
theorem claim_C8_witness :
    resolve_assignee exStageRole exUser1 exStoreRole1 =
      resolve_assignee exStageRole exUser1 exStoreRole2 :=
  claim_C8_resolve_deterministic.2 exStageRole exUser1 exStoreRole1 exStoreRole2 5
    rfl rfl (by decide)

/-! ### Claim C9: elapsed seconds -/

/-- Claim C9: `calculate_elapsed_time` is the whole-second difference between
`started_at` and `completed_at` when the latter is set, else between
`started_at` and `now`; it is monotonically non-decreasing in `now` while
open, and independent of `now` (frozen) once `completed_at` is set. -/
theorem claim_C9_elapsed_seconds :
    (∀ started_at c now : ℚ,
        calculate_elapsed_time started_at (some c) now = pyIntTrunc (c - started_at)) ∧
    (∀ started_at now : ℚ,
        calculate_elapsed_time started_at none now = pyIntTrunc (now - started_at)) ∧
    (∀ started_at n1 n2 : ℚ, n1 ≤ n2 →
        calculate_elapsed_time started_at none n1 ≤ calculate_elapsed_time started_at none n2) ∧
    (∀ started_at c n1 n2 : ℚ,
        calculate_elapsed_time started_at (some c) n1 =
          calculate_elapsed_time started_at (some c) n2) := by
  refine ⟨fun _ _ _ => rfl, fun _ _ => rfl, ?_, fun _ _ _ _ => rfl⟩
  intro s n1 n2 h
  exact pyIntTrunc_mono (by linarith)

/-- Claim C9, witness: the open-flow elapsed time at `now = 3` is at most the
one at `now = 5`. -/
theorem claim_C9_witness :
    calculate_elapsed_time 0 none 3 ≤ calculate_elapsed_time 0 none 5 :=
  claim_C9_elapsed_seconds.2.2.1 0 3 5 (by norm_num)

/-! ### Claim C3: StartFlow -/

/-- Claim C3: `StartFlow` fails with `TemplateNotFound` / `TemplateInactive` /
`NoStagesDefined` / `AssigneeUnresolvable` exactly under the stated
conditions and then commits nothing; otherwise it creates, together, exactly
one ACTIVE FlowInstance pointing at the first stage and resolved assignee
with the caller as initiator, exactly one PENDING TaskInstance for that stage
and assignee, and exactly one FLOW_STARTED ActivityLog entry. -/
theorem claim_C3_start_flow :
    ∀ (db : Store) (tid : Nat) (title : String) (descr : Option String) (u : User) (now : ℚ),
      (create_flow_instance db tid title descr u now = .error .TemplateNotFound ↔
        db.templates.find? (fun t => t.id == tid) = none) ∧
      (create_flow_instance db tid title descr u now = .error .TemplateInactive ↔
        ∃ tmpl, db.templates.find? (fun t => t.id == tid) = some tmpl ∧
          tmpl.is_active = false) ∧
      (create_flow_instance db tid title descr u now = .error .NoStagesDefined ↔
        ∃ tmpl, db.templates.find? (fun t => t.id == tid) = some tmpl ∧
          tmpl.is_active = true ∧ get_first_stage tmpl = none) ∧
      (create_flow_instance db tid title descr u now = .error .AssigneeUnresolvable ↔
        ∃ tmpl fs, db.templates.find? (fun t => t.id == tid) = some tmpl ∧
          tmpl.is_active = true ∧ get_first_stage tmpl = some fs ∧
          resolve_assignee fs u db = none) ∧
      (∀ e, create_flow_instance db tid title descr u now = .error e →
        create_flow_instance_committed db tid title descr u now = db) ∧
      (∀ db', create_flow_instance db tid title descr u now = .ok db' →
        ∃ tmpl fs a,
          db.templates.find? (fun t => t.id == tid) = some tmpl ∧ tmpl.is_active = true ∧
          get_first_stage tmpl = some fs ∧ resolve_assignee fs u db = some a ∧
          db'.flows = db.flows ++
            [{ id := db.next_flow_id, flow_template_id := tmpl.id, title := title,
               description := descr, status := .ACTIVE, current_stage_id := some fs.id,
               current_assignee_id := some a.id, initiator_id := u.id, started_at := now,
               completed_at := none }] ∧
          db'.tasks = db.tasks ++
            [{ id := db.next_task_id, flow_instance_id := db.next_flow_id, stage_id := fs.id,
               assignee_id := a.id, status := .PENDING, assigned_at := now,
               completed_at := none }] ∧
          db'.activity_logs = db.activity_logs ++
            [{ id := db.next_log_id, flow_instance_id := db.next_flow_id,
               activity_type := .FLOW_STARTED, actor_id := some u.id,
               details := [("flow_template_name", .str tmpl.name),
                           ("first_stage_name", .str fs.name),
                           ("first_assignee_email", .str a.email)] }] ∧
          db'.form_data_values = db.form_data_values) := by
  intro db tid title descr u now
  rcases hT : db.templates.find? (fun t => t.id == tid) with _ | tmpl
  · simp [create_flow_instance, create_flow_instance_committed, hT]
  · by_cases hA : tmpl.is_active = true
    · rcases hF : get_first_stage tmpl with _ | fs
      · simp [create_flow_instance, create_flow_instance_committed, hT, hA, hF]
      · rcases hR : resolve_assignee fs u db with _ | a
        · simp [create_flow_instance, create_flow_instance_committed, hT, hA, hF, hR]
        · simp only [create_flow_instance, create_flow_instance_committed, hT, hA, hF, hR]
          refine ⟨by simp, by simp [hA], by simp [hA, hF], by simp [hA, hF, hR], by simp, ?_⟩
          intro db' hdb'
          have hdb'' := (Except.ok.inj hdb').symm
          subst hdb''
          exact ⟨tmpl, fs, a, rfl, hA, hF, hR, rfl, rfl, rfl, rfl⟩
    · have hA' : tmpl.is_active = false := by simpa using hA
      simp [create_flow_instance, create_flow_instance_committed, hT, hA']

/-- Claim C3, witness: starting a flow from an unknown template id fails with
`TemplateNotFound`. -/
theorem claim_C3_witness :
    create_flow_instance exStoreFresh 99 "Nope" none exUser1 0 = .error .TemplateNotFound :=
  (claim_C3_start_flow exStoreFresh 99 "Nope" none exUser1 0).1.mpr (by decide)

/-! ### Claim C4: failed CompleteTask commits nothing -/

/-- Claim C4: when `CompleteTask` fails with any error, the committed store
is exactly the prior store — in particular the task stays as it was (PENDING),
the flow instance is untouched, and no FormDataValue, TaskInstance or
ActivityLog row is persisted; the form-data writes and COMPLETED marking made
earlier inside the same request are discarded with the session. -/
theorem claim_C4_error_leaves_state_unchanged :
    ∀ (db : Store) (task_id : Nat) (fd : List (Nat × JsonValue)) (u : User) (now : ℚ) (e : Err),
      complete_task db task_id fd u now = .error e →
      complete_task_committed db task_id fd u now = db ∧
      (complete_task_committed db task_id fd u now).tasks = db.tasks ∧
      (complete_task_committed db task_id fd u now).flows = db.flows ∧
      (complete_task_committed db task_id fd u now).form_data_values = db.form_data_values ∧
      (complete_task_committed db task_id fd u now).activity_logs = db.activity_logs := by
  intro db task_id fd u now e h
  have hc : complete_task_committed db task_id fd u now = db := by
    unfold complete_task_committed
    rw [h]
  exact ⟨hc, by rw [hc], by rw [hc], by rw [hc], by rw [hc]⟩

/-- Claim C4, witness: completing the first task of `exStoreC` hits
`AssigneeUnresolvable` while advancing (the next stage is EXTERNAL), and the
committed store is unchanged. -/
theorem claim_C4_witness :
    complete_task_committed exStoreC 1 [] exUser1 1 = exStoreC :=
  (claim_C4_error_leaves_state_unchanged exStoreC 1 [] exUser1 1 .AssigneeUnresolvable
    rfl).1

/-! ### Claim C5: CompleteTask guard conditions -/

lemma missing_any_iff (stage : Stage) (fd : List (Nat × JsonValue)) :
    (stage.form_fields.any (fun f => f.required && !(fd.any (fun p => p.1 == f.id))) = true) ↔
    ∃ f ∈ stage.form_fields, f.required = true ∧ ∀ p ∈ fd, p.1 ≠ f.id := by
  simp [List.any_eq_true, Bool.and_eq_true, Bool.not_eq_true', List.any_eq_false]

lemma unknown_any_iff (stage : Stage) (fd : List (Nat × JsonValue)) :
    (fd.any (fun p =>
        !(stage.form_fields.any (fun f => f.id == p.1 && f.stage_id == stage.id))) = true) ↔
    ∃ p ∈ fd, ∀ f ∈ stage.form_fields, ¬(f.id = p.1 ∧ f.stage_id = stage.id) := by
  simp [List.any_eq_true, Bool.and_eq_true, Bool.not_eq_true', List.any_eq_false]

/-- Claim C5, counterexample: for a PENDING task whose stage has an unmet
required field, a submission whose only key (999) does not belong to the
stage is rejected with `MissingRequiredField`, not `UnknownField` — so
"rejects with UnknownField exactly when some supplied field id does not
belong to the task's stage" fails as stated: the right-hand side holds here
while the rejection is a different error. -/
theorem claim_C5_counterexample :
    complete_task exStoreA 1 [(999, JsonValue.null)] exUser1 0 = .error .MissingRequiredField ∧
    complete_task exStoreA 1 [(999, JsonValue.null)] exUser1 0 ≠ .error .UnknownField ∧
    exStoreA.tasks.find? (fun t => t.id == 1) = some exTaskA ∧
    exTaskA.assignee_id = exUser1.id ∧ exTaskA.status = .PENDING ∧
    exStoreA.stagesTable.find? (fun s => s.id == exTaskA.stage_id) = some exStageDraft ∧
    (∃ p ∈ [((999 : Nat), JsonValue.null)],
      ∀ f ∈ exStageDraft.form_fields, ¬(f.id = p.1 ∧ f.stage_id = exStageDraft.id)) :=
  ⟨rfl, fun h => Err.noConfusion (Except.error.inj h), rfl, rfl, rfl, rfl, by decide⟩

/-- Claim C5, amended: for an existing task, `NotAssignee` exactly when the
actor is not the assignee; given the assignee, `TaskAlreadyResolved` exactly
when the task is not PENDING; given a PENDING task and its stage,
`MissingRequiredField` exactly when a required field of the stage is absent
from the submission, and — provided every required field is supplied (the
missing-field check runs first and takes precedence) — `UnknownField` exactly
when some supplied field id does not belong to the stage; extra keys that do
belong are not otherwise rejected. -/
theorem claim_C5_complete_task_validation :
    ∀ (db : Store) (task_id : Nat) (fd : List (Nat × JsonValue)) (u : User) (now : ℚ)
      (task : TaskInstance),
      db.tasks.find? (fun t => t.id == task_id) = some task →
      ((complete_task db task_id fd u now = .error .NotAssignee ↔ task.assignee_id ≠ u.id) ∧
       (task.assignee_id = u.id →
         (complete_task db task_id fd u now = .error .TaskAlreadyResolved ↔
           task.status ≠ .PENDING)) ∧
       (task.assignee_id = u.id → task.status = .PENDING →
         ∀ stage, db.stagesTable.find? (fun s => s.id == task.stage_id) = some stage →
           ((complete_task db task_id fd u now = .error .MissingRequiredField ↔
              ∃ f ∈ stage.form_fields, f.required = true ∧ ∀ p ∈ fd, p.1 ≠ f.id) ∧
            ((∀ f ∈ stage.form_fields, f.required = true → ∃ p ∈ fd, p.1 = f.id) →
              (complete_task db task_id fd u now = .error .UnknownField ↔
                ∃ p ∈ fd, ∀ f ∈ stage.form_fields,
                  ¬(f.id = p.1 ∧ f.stage_id = stage.id)))))) := by
  intro db task_id fd u now task htask
  by_cases hna : task.assignee_id = u.id
  · by_cases hst : task.status = TaskStatus.PENDING
    · rcases hS : db.stagesTable.find? (fun s => s.id == task.stage_id) with _ | stage
      · have hres : complete_task db task_id fd u now = .error .BrokenReference := by
          simp [complete_task, htask, hna, hst, hS]
        refine ⟨by rw [hres]; simp [hna], fun _ => by rw [hres]; simp [hst], ?_⟩
        intro _ _ stage' hstage'
        rw [hS] at hstage'
        exact absurd hstage' (by simp)
      · by_cases hmr :
          stage.form_fields.any (fun f => f.required && !(fd.any (fun p => p.1 == f.id))) = true
        · have hres : complete_task db task_id fd u now = .error .MissingRequiredField := by
            simp [complete_task, htask, hna, hst, hS, hmr]
          refine ⟨by rw [hres]; simp [hna], fun _ => by rw [hres]; simp [hst], ?_⟩
          intro _ _ stage' hstage'
          rw [hS] at hstage'
          have hseq := Option.some.inj hstage'
          subst hseq
          refine ⟨⟨fun _ => (missing_any_iff stage fd).mp hmr, fun _ => hres⟩, ?_⟩
          intro hall
          obtain ⟨f, hf, hreq, hnp⟩ := (missing_any_iff stage fd).mp hmr
          obtain ⟨p, hp, hpe⟩ := hall f hf hreq
          exact absurd hpe (hnp p hp)
        · by_cases huf : fd.any (fun p =>
              !(stage.form_fields.any (fun f => f.id == p.1 && f.stage_id == stage.id))) = true
          · have hres : complete_task db task_id fd u now = .error .UnknownField := by
              simp [complete_task, htask, hna, hst, hS, hmr, huf]
            refine ⟨by rw [hres]; simp [hna], fun _ => by rw [hres]; simp [hst], ?_⟩
            intro _ _ stage' hstage'
            rw [hS] at hstage'
            have hseq := Option.some.inj hstage'
            subst hseq
            have hmr' := mt (missing_any_iff stage fd).mpr hmr
            refine ⟨⟨fun h => absurd h (by rw [hres]; simp), fun hx => absurd hx hmr'⟩, ?_⟩
            exact fun _ => ⟨fun _ => (unknown_any_iff stage fd).mp huf, fun _ => hres⟩
          · have hne : ∀ e : Err,
                e = .NotAssignee ∨ e = .TaskAlreadyResolved ∨ e = .MissingRequiredField ∨
                  e = .UnknownField →
                complete_task db task_id fd u now ≠ .error e := by
              intro e he h
              simp only [complete_task, htask, hS] at h
              rw [if_neg (fun hh => hh hna), if_neg (fun hh => hh hst),
                if_neg hmr, if_neg huf] at h
              rcases hFl : db.flows.find? (fun f => f.id == task.flow_instance_id) with _ | fi
              · simp only [hFl] at h
                rcases he with rfl | rfl | rfl | rfl <;> simp at h
              · simp only [hFl] at h
                rcases hTm : db.templates.find? (fun t0 => t0.id == fi.flow_template_id)
                  with _ | tm
                · simp only [hTm] at h
                  rcases he with rfl | rfl | rfl | rfl <;> simp at h
                · simp only [hTm] at h
                  rcases hIn : db.users.find? (fun u0 => u0.id == fi.initiator_id) with _ | ini
                  · simp only [hIn] at h
                    rcases he with rfl | rfl | rfl | rfl <;> simp at h
                  · simp only [hIn] at h
                    rcases hNs : get_next_stage tm stage with _ | ns
                    · simp only [hNs] at h
                      rcases he with rfl | rfl | rfl | rfl <;> simp at h
                    · simp only [hNs] at h
                      rcases hRa : resolve_assignee ns ini db with _ | na
                      · simp only [hRa] at h
                        rcases he with rfl | rfl | rfl | rfl <;> simp at h
                      · simp only [hRa] at h
                        rcases he with rfl | rfl | rfl | rfl <;> simp at h
            refine ⟨⟨fun h => absurd h (hne _ (Or.inl rfl)), fun hcon => (hcon hna).elim⟩,
              fun _ => ⟨fun h => absurd h (hne _ (Or.inr (Or.inl rfl))),
                fun hcon => (hcon hst).elim⟩, ?_⟩
            intro _ _ stage' hstage'
            rw [hS] at hstage'
            have hseq := Option.some.inj hstage'
            subst hseq
            have hmr' := mt (missing_any_iff stage fd).mpr hmr
            have huf' := mt (unknown_any_iff stage fd).mpr huf
            exact ⟨⟨fun h => absurd h (hne _ (Or.inr (Or.inr (Or.inl rfl)))),
                fun hx => absurd hx hmr'⟩,
              fun _ => ⟨fun h => absurd h (hne _ (Or.inr (Or.inr (Or.inr rfl)))),
                fun hx => absurd hx huf'⟩⟩
    · have hres : complete_task db task_id fd u now = .error .TaskAlreadyResolved := by
        simp [complete_task, htask, hna, hst]
      refine ⟨by rw [hres]; simp [hna], fun _ => by rw [hres]; simp [hst], ?_⟩
      intro _ hp
      exact absurd hp hst
  · have hres : complete_task db task_id fd u now = .error .NotAssignee := by
      simp [complete_task, htask, hna]
    refine ⟨by rw [hres]; simp [hna], ?_, ?_⟩
    · intro hp
      exact absurd hp hna
    · intro hp
      exact absurd hp hna

/-- Claim C5, witness: a non-assignee caller on the Draft task of `exStoreA`
is rejected with `NotAssignee`. -/
theorem claim_C5_witness :
    complete_task exStoreA 1 [] exUser2 0 = .error .NotAssignee ↔
      exTaskA.assignee_id ≠ exUser2.id :=
  (claim_C5_complete_task_validation exStoreA 1 [] exUser2 0 exTaskA (by decide)).1

/-! ### Inversion of a successful CompleteTask -/

lemma find?_map_of_pred_comm {α : Type} (f : α → α) (p : α → Bool) (l : List α)
    (hp : ∀ x, p (f x) = p x) : (l.map f).find? p = (l.find? p).map f := by
  induction l with
  | nil => rfl
  | cons x xs ih =>
    simp only [List.map_cons, List.find?]
    rw [hp x]
    cases hpx : p x
    · exact ih
    · rfl

lemma find?_append_left {α : Type} {p : α → Bool} {l1 l2 : List α} {a : α}
    (h : l1.find? p = some a) : (l1 ++ l2).find? p = some a := by
  induction l1 with
  | nil => exact absurd h (by simp)
  | cons x xs ih =>
    simp only [List.cons_append, List.find?] at h ⊢
    cases hpx : p x
    · rw [hpx] at h
      exact ih h
    · rw [hpx] at h
      exact h

/-- Anatomy of a successful `complete_task` call: all lookups and guards
passed, and the committed store is `completeAdvance` (a next stage exists and
its assignee resolved against the flow's initiator) or `completeFinish` (the
completed stage was terminal). -/
lemma complete_task_ok_elim
    {db : Store} {task_id : Nat} {fd : List (Nat × JsonValue)} {u : User} {now : ℚ}
    {db' : Store} (h : complete_task db task_id fd u now = .ok db') :
    ∃ task stage flow_instance flow_template initiator,
      db.tasks.find? (fun t => t.id == task_id) = some task ∧
      task.assignee_id = u.id ∧
      task.status = .PENDING ∧
      db.stagesTable.find? (fun s => s.id == task.stage_id) = some stage ∧
      db.flows.find? (fun f => f.id == task.flow_instance_id) = some flow_instance ∧
      db.templates.find? (fun t0 => t0.id == flow_instance.flow_template_id) =
        some flow_template ∧
      db.users.find? (fun u0 => u0.id == flow_instance.initiator_id) = some initiator ∧
      ((∃ next_stage next_assignee,
          get_next_stage flow_template stage = some next_stage ∧
          resolve_assignee next_stage initiator db = some next_assignee ∧
          db' = completeAdvance db task_id fd u now task flow_instance stage next_stage
            next_assignee) ∨
       (get_next_stage flow_template stage = none ∧
          db' = completeFinish db task_id fd u now task flow_instance stage)) := by
  rcases htask : db.tasks.find? (fun t => t.id == task_id) with _ | task
  · simp only [complete_task, htask] at h
    exact absurd h (by simp)
  · simp only [complete_task, htask] at h
    by_cases hna : task.assignee_id = u.id
    · rw [if_neg (fun hh => hh hna)] at h
      by_cases hst : task.status = TaskStatus.PENDING
      · rw [if_neg (fun hh => hh hst)] at h
        rcases hS : db.stagesTable.find? (fun s => s.id == task.stage_id) with _ | stage
        · simp only [hS] at h
          exact absurd h (by simp)
        · simp only [hS] at h
          by_cases hmr : (stage.form_fields.any
              (fun f => f.required && !(fd.any (fun p => p.1 == f.id)))) = true
          · rw [if_pos hmr] at h
            exact absurd h (by simp)
          · rw [if_neg hmr] at h
            by_cases huf : (fd.any (fun p =>
                !(stage.form_fields.any
                  (fun f => f.id == p.1 && f.stage_id == stage.id)))) = true
            · rw [if_pos huf] at h
              exact absurd h (by simp)
            · rw [if_neg huf] at h
              rcases hFl : db.flows.find? (fun f => f.id == task.flow_instance_id) with _ | fi
              · simp only [hFl] at h
                exact absurd h (by simp)
              · simp only [hFl] at h
                rcases hTm : db.templates.find? (fun t0 => t0.id == fi.flow_template_id)
                  with _ | tm
                · simp only [hTm] at h
                  exact absurd h (by simp)
                · simp only [hTm] at h
                  rcases hIn : db.users.find? (fun u0 => u0.id == fi.initiator_id) with _ | ini
                  · simp only [hIn] at h
                    exact absurd h (by simp)
                  · simp only [hIn] at h
                    rcases hNs : get_next_stage tm stage with _ | ns
                    · simp only [hNs] at h
                      exact ⟨task, stage, fi, tm, ini, htask, hna, hst, hS, hFl, hTm, hIn,
                        Or.inr ⟨hNs, (Except.ok.inj h).symm⟩⟩
                    · simp only [hNs] at h
                      rcases hRa : resolve_assignee ns ini db with _ | na
                      · simp only [hRa] at h
                        exact absurd h (by simp)
                      · simp only [hRa] at h
                        exact ⟨task, stage, fi, tm, ini, htask, hna, hst, hS, hFl, hTm, hIn,
                          Or.inl ⟨ns, na, hNs, hRa, (Except.ok.inj h).symm⟩⟩
      · rw [if_pos hst] at h
        exact absurd h (by simp)
    · rw [if_pos hna] at h
      exact absurd h (by simp)

/-! ### Claim C1: successful CompleteTask -/

/-- Claim C1: every successful `CompleteTask` marks the task COMPLETED with
`completed_at = now`; when the template has a stage of order
`task.stage.order + 1`, the next assignee is resolved against the flow's
original initiator (the user row whose id is `flow_instance.initiator_id`,
not the completing actor), exactly one new PENDING TaskInstance for that
stage and assignee is appended, the flow's `current_stage_id` /
`current_assignee_id` move to the next stage and assignee, and exactly one
STAGE_COMPLETED ActivityLog entry is appended; when no such stage exists, the
flow becomes COMPLETED with `completed_at = now` and both current pointers
nulled, and exactly one FLOW_COMPLETED ActivityLog entry is appended. -/
theorem claim_C1_complete_task_success :
    ∀ (db : Store) (task_id : Nat) (fd : List (Nat × JsonValue)) (u : User) (now : ℚ)
      (db' : Store),
      complete_task db task_id fd u now = .ok db' →
      ∃ task stage flow_instance flow_template initiator,
        db.tasks.find? (fun t => t.id == task_id) = some task ∧
        task.assignee_id = u.id ∧ task.status = .PENDING ∧
        db.stagesTable.find? (fun s => s.id == task.stage_id) = some stage ∧
        db.flows.find? (fun f => f.id == task.flow_instance_id) = some flow_instance ∧
        db.templates.find? (fun t0 => t0.id == flow_instance.flow_template_id) =
          some flow_template ∧
        db.users.find? (fun u0 => u0.id == flow_instance.initiator_id) = some initiator ∧
        initiator.id = flow_instance.initiator_id ∧
        db'.tasks.find? (fun t => t.id == task_id) =
          some { task with status := .COMPLETED, completed_at := some now } ∧
        ((∃ next_stage next_assignee,
            get_next_stage flow_template stage = some next_stage ∧
            next_stage.order = stage.order + 1 ∧
            resolve_assignee next_stage initiator db = some next_assignee ∧
            db'.tasks = db.tasks.map (markTaskCompleted task_id now) ++
              [{ id := db.next_task_id, flow_instance_id := flow_instance.id,
                 stage_id := next_stage.id, assignee_id := next_assignee.id,
                 status := .PENDING, assigned_at := now, completed_at := none }] ∧
            db'.flows = db.flows.map (fun f =>
              if f.id == flow_instance.id then
                { f with current_stage_id := some next_stage.id, current_assignee_id := some next_assignee.id }
              else f) ∧
            db'.form_data_values = db.form_data_values ++
              mkFormDataValues db.next_fdv_id task.id fd ∧
            db'.activity_logs = db.activity_logs ++
              [{ id := db.next_log_id, flow_instance_id := flow_instance.id,
                 activity_type := .STAGE_COMPLETED, actor_id := some u.id,
                 details := [("stage_name", .str stage.name),
                             ("stage_id", .num stage.id),
                             ("next_stage_name", .str next_stage.name),
                             ("next_stage_id", .num next_stage.id),
                             ("next_assignee_email", .str next_assignee.email)] }]) ∨
         (get_next_stage flow_template stage = none ∧
            db'.tasks = db.tasks.map (markTaskCompleted task_id now) ∧
            db'.flows = db.flows.map (fun f =>
              if f.id == flow_instance.id then
                { f with status := .COMPLETED, completed_at := some now, current_stage_id := none, current_assignee_id := none }
              else f) ∧
            db'.form_data_values = db.form_data_values ++
              mkFormDataValues db.next_fdv_id task.id fd ∧
            db'.activity_logs = db.activity_logs ++
              [{ id := db.next_log_id, flow_instance_id := flow_instance.id,
                 activity_type := .FLOW_COMPLETED, actor_id := some u.id,
                 details := [("final_stage_name", .str stage.name),
                             ("final_stage_id", .num stage.id)] }])) := by
  intro db task_id fd u now db' h
  obtain ⟨task, stage, fi, tm, ini, htask, hna, hst, hS, hFl, hTm, hIn, hbr⟩ :=
    complete_task_ok_elim h
  have htid := List.find?_some htask
  have hini : ini.id = fi.initiator_id := by simpa using List.find?_some hIn
  have hmark : (db.tasks.map (markTaskCompleted task_id now)).find?
      (fun t => t.id == task_id) =
      some { task with status := .COMPLETED, completed_at := some now } := by
    rw [find?_map_of_pred_comm _ _ _ (fun x => by unfold markTaskCompleted; split <;> rfl)]
    rw [htask]
    simp [markTaskCompleted, htid]
  rcases hbr with ⟨ns, na, hNs, hRa, rfl⟩ | ⟨hNs, rfl⟩
  · have hord : ns.order = stage.order + 1 := by
      unfold get_next_stage at hNs
      split at hNs
      · exact absurd hNs (by simp)
      · simpa using List.find?_some hNs
    exact ⟨task, stage, fi, tm, ini, htask, hna, hst, hS, hFl, hTm, hIn, hini,
      find?_append_left hmark,
      Or.inl ⟨ns, na, hNs, hord, hRa, rfl, rfl, rfl, rfl⟩⟩
  · exact ⟨task, stage, fi, tm, ini, htask, hna, hst, hS, hFl, hTm, hIn, hini, hmark,
      Or.inr ⟨hNs, rfl, rfl, rfl, rfl⟩⟩

/-- Claim C1, witness: completing the Draft task of `exStoreStarted` (with its
required field supplied) marks that task COMPLETED with `completed_at` set. -/
theorem claim_C1_witness :
    exStoreDone.tasks.find? (fun t => t.id == 1) =
      some { id := 1, flow_instance_id := 1, stage_id := 11, assignee_id := 1, status := .COMPLETED, assigned_at := 0, completed_at := some 1 } := by
  obtain ⟨task, stage, fi, tm, ini, h1, h2, h3, h4, h5, h6, h7, h8, h9, hbr⟩ :=
    claim_C1_complete_task_success exStoreStarted 1 [(101, JsonValue.str "done")] exUser1 1
      exStoreDone rfl
  have ht : task = { id := 1, flow_instance_id := 1, stage_id := 11, assignee_id := 1, status := .PENDING, assigned_at := 0, completed_at := none } := by
    have h1' := h1
    rw [show exStoreStarted.tasks.find? (fun t => t.id == 1) =
      some { id := 1, flow_instance_id := 1, stage_id := 11, assignee_id := 1, status := TaskStatus.PENDING, assigned_at := 0, completed_at := none }
      from rfl] at h1'
    exact (Option.some.inj h1').symm
  rw [h9, ht]

/-! ### Invariant machinery -/

lemma two_le_length_of_ne_mem {α : Type} {a b : α} {l : List α}
    (ha : a ∈ l) (hb : b ∈ l) (hne : a ≠ b) : 2 ≤ l.length := by
  induction l with
  | nil => exact absurd ha (List.not_mem_nil a)
  | cons x xs ih =>
    rcases List.mem_cons.mp ha with rfl | ha'
    · rcases List.mem_cons.mp hb with rfl | hb'
      · exact absurd rfl hne
      · have := List.length_pos_of_mem hb'
        simp only [List.length_cons]
        omega
    · rcases List.mem_cons.mp hb with rfl | hb'
      · have := List.length_pos_of_mem ha'
        simp only [List.length_cons]
        omega
      · have := ih ha' hb'
        simp only [List.length_cons]
        omega

lemma filter_map_eq_of_agree {α : Type} (g : α → α) (p : α → Bool) (l : List α)
    (hagree : ∀ x ∈ l, p (g x) = p x ∧ (p x = true → g x = x)) :
    (l.map g).filter p = l.filter p := by
  induction l with
  | nil => rfl
  | cons x xs ih =>
    obtain ⟨h1, h2⟩ := hagree x (List.mem_cons_self x xs)
    have ih' := ih (fun y hy => hagree y (List.mem_cons_of_mem x hy))
    simp only [List.map_cons, List.filter_cons, h1]
    cases hpx : p x
    · simp [ih']
    · simp [ih', h2 hpx]

lemma markTaskCompleted_id (task_id : Nat) (now : ℚ) (t : TaskInstance) :
    (markTaskCompleted task_id now t).id = t.id := by
  unfold markTaskCompleted
  split <;> rfl

lemma markTaskCompleted_flow (task_id : Nat) (now : ℚ) (t : TaskInstance) :
    (markTaskCompleted task_id now t).flow_instance_id = t.flow_instance_id := by
  unfold markTaskCompleted
  split <;> rfl

lemma markTaskCompleted_other {task_id : Nat} {now : ℚ} {t : TaskInstance}
    (h : t.id ≠ task_id) : markTaskCompleted task_id now t = t := by
  unfold markTaskCompleted
  rw [if_neg (by simpa using h)]

lemma markTaskCompleted_self {task_id : Nat} {now : ℚ} {t : TaskInstance}
    (h : t.id = task_id) :
    markTaskCompleted task_id now t =
      { t with status := .COMPLETED, completed_at := some now } := by
  unfold markTaskCompleted
  rw [if_pos (by simpa using h)]

lemma mkFormDataValues_mem_tid {fd : List (Nat × JsonValue)} :
    ∀ {b tid : Nat} {v : FormDataValue}, v ∈ mkFormDataValues b tid fd →
      v.task_instance_id = tid := by
  induction fd with
  | nil => intro b tid v hv; exact absurd hv (List.not_mem_nil v)
  | cons p rest ih =>
    intro b tid v hv
    rcases List.mem_cons.mp hv with rfl | hv'
    · rfl
    · exact ih hv'

lemma mkFormDataValues_mem_fid {fd : List (Nat × JsonValue)} :
    ∀ {b tid : Nat} {v : FormDataValue}, v ∈ mkFormDataValues b tid fd →
      v.form_field_id ∈ fd.map Prod.fst := by
  induction fd with
  | nil => intro b tid v hv; exact absurd hv (List.not_mem_nil v)
  | cons p rest ih =>
    intro b tid v hv
    rcases List.mem_cons.mp hv with rfl | hv'
    · exact List.mem_cons_self _ _
    · exact List.mem_cons_of_mem _ (ih hv')

lemma mkFormDataValues_filter_le_one {fd : List (Nat × JsonValue)}
    (hkeys : (fd.map Prod.fst).Nodup) (tid0 fid : Nat) :
    ∀ b tid : Nat,
      ((mkFormDataValues b tid fd).filter
        (fun v => v.task_instance_id == tid0 && v.form_field_id == fid)).length ≤ 1 := by
  induction fd with
  | nil => intro b tid; simp [mkFormDataValues]
  | cons p rest ih =>
    intro b tid
    simp only [List.map_cons, List.nodup_cons] at hkeys
    obtain ⟨hk, hkeys'⟩ := hkeys
    simp only [mkFormDataValues, List.filter_cons]
    split
    · rename_i hp
      simp only [Bool.and_eq_true, beq_iff_eq] at hp
      have hrest : ((mkFormDataValues (b + 1) tid rest).filter
          (fun v => v.task_instance_id == tid0 && v.form_field_id == fid)).length = 0 := by
        rw [List.length_eq_zero]
        rw [List.filter_eq_nil_iff]
        intro v hv hpv
        simp only [Bool.and_eq_true, beq_iff_eq] at hpv
        have := mkFormDataValues_mem_fid hv
        rw [hpv.2, ← hp.2] at this
        exact hk this
      simp only [List.length_cons, hrest]
      omega
    · exact ih hkeys' (b + 1) tid

/-- Anatomy of a successful `create_flow_instance` call. -/
lemma create_flow_instance_ok_elim
    {db : Store} {tid : Nat} {title : String} {descr : Option String} {u : User} {now : ℚ}
    {db' : Store} (h : create_flow_instance db tid title descr u now = .ok db') :
    ∃ (tmpl : FlowTemplate) (fs : Stage) (a : User),
      db.templates.find? (fun t => t.id == tid) = some tmpl ∧
      db'.users = db.users ∧ db'.roles = db.roles ∧ db'.templates = db.templates ∧
      db'.flows = db.flows ++
        [{ id := db.next_flow_id, flow_template_id := tmpl.id, title := title, description := descr, status := .ACTIVE, current_stage_id := some fs.id, current_assignee_id := some a.id, initiator_id := u.id, started_at := now, completed_at := none }] ∧
      db'.tasks = db.tasks ++
        [{ id := db.next_task_id, flow_instance_id := db.next_flow_id, stage_id := fs.id, assignee_id := a.id, status := .PENDING, assigned_at := now, completed_at := none }] ∧
      db'.form_data_values = db.form_data_values ∧
      db'.next_flow_id = db.next_flow_id + 1 ∧
      db'.next_task_id = db.next_task_id + 1 := by
  rcases hT : db.templates.find? (fun t => t.id == tid) with _ | tmpl
  · simp only [create_flow_instance, hT] at h
    exact absurd h (by simp)
  · simp only [create_flow_instance, hT] at h
    by_cases hA : tmpl.is_active = true
    · rw [if_neg (by simp [hA])] at h
      rcases hF : get_first_stage tmpl with _ | fs
      · simp only [hF] at h
        exact absurd h (by simp)
      · simp only [hF] at h
        rcases hR : resolve_assignee fs u db with _ | a
        · simp only [hR] at h
          exact absurd h (by simp)
        · simp only [hR] at h
          have hdb : db' = _ := (Except.ok.inj h).symm
          subst hdb
          exact ⟨tmpl, fs, a, hT, rfl, rfl, rfl, rfl, rfl, rfl, rfl, rfl⟩
    · rw [if_pos (by simp [hA])] at h
      exact absurd h (by simp)

/-- The execution-empty store satisfies the invariant. -/
lemma Inv_initial (users : List User) (roles : List FlowRole)
    (templates : List FlowTemplate) : Inv (Store.initial users roles templates) := by
  constructor <;> simp [Store.initial, pendingFor, fdvsFor]

/-- `StartFlow` preserves the invariant. -/
lemma Inv_create {db db' : Store} {tid : Nat} {title : String} {descr : Option String}
    {u : User} {now : ℚ} (inv : Inv db)
    (h : create_flow_instance db tid title descr u now = .ok db') : Inv db' := by
  obtain ⟨tmpl, fs, a, hT, hu, hr, ht, hflows, htasks, hfdv, hnfid, hntid⟩ :=
    create_flow_instance_ok_elim h
  have hnewtaskflow : ∀ t ∈ db.tasks, t.flow_instance_id ≠ db.next_flow_id := by
    intro t htmem heq
    obtain ⟨f, hfmem, hfid⟩ := inv.task_flow_exists t htmem
    have := inv.flow_ids_lt f hfmem
    omega
  constructor
  · rw [hflows, hnfid]
    intro f hf
    rcases List.mem_append.mp hf with hf' | hf'
    · exact lt_trans (inv.flow_ids_lt f hf') (Nat.lt_succ_self _)
    · simp only [List.mem_singleton] at hf'
      subst hf'
      exact Nat.lt_succ_self _
  · rw [hflows, List.map_append]
    rw [List.nodup_append]
    refine ⟨inv.flow_ids_nodup, by simp, ?_⟩
    simp only [List.map_cons, List.map_nil, List.disjoint_singleton]
    intro hmem
    obtain ⟨f, hfmem, hfid⟩ := List.mem_map.mp hmem
    have := inv.flow_ids_lt f hfmem
    omega
  · rw [htasks, hntid]
    intro t htm
    rcases List.mem_append.mp htm with ht' | ht'
    · exact lt_trans (inv.task_ids_lt t ht') (Nat.lt_succ_self _)
    · simp only [List.mem_singleton] at ht'
      subst ht'
      exact Nat.lt_succ_self _
  · rw [htasks, List.map_append]
    rw [List.nodup_append]
    refine ⟨inv.task_ids_nodup, by simp, ?_⟩
    simp only [List.map_cons, List.map_nil, List.disjoint_singleton]
    intro hmem
    obtain ⟨t, htm, htid2⟩ := List.mem_map.mp hmem
    have := inv.task_ids_lt t htm
    omega
  · rw [htasks, hflows]
    intro t htm
    rcases List.mem_append.mp htm with ht' | ht'
    · obtain ⟨f, hfmem, hfid⟩ := inv.task_flow_exists t ht'
      exact ⟨f, List.mem_append_left _ hfmem, hfid⟩
    · simp only [List.mem_singleton] at ht'
      subst ht'
      exact ⟨_, List.mem_append_right _ (List.mem_singleton.mpr rfl), rfl⟩
  · rw [hflows]
    intro f hf
    rcases List.mem_append.mp hf with hf' | hf'
    · exact inv.status_range f hf'
    · simp only [List.mem_singleton] at hf'
      subst hf'
      exact Or.inl rfl
  · rw [hflows]
    intro f hf
    rcases List.mem_append.mp hf with hf' | hf'
    · exact inv.stage_iff_active f hf'
    · simp only [List.mem_singleton] at hf'
      subst hf'
      simp
  · rw [hflows]
    intro f hf
    rcases List.mem_append.mp hf with hf' | hf'
    · exact inv.completed_at_iff f hf'
    · simp only [List.mem_singleton] at hf'
      subst hf'
      simp
  · rw [hflows]
    intro f hf
    have hsplit : pendingFor db' f.id =
        pendingFor db f.id ++ ([{ id := db.next_task_id, flow_instance_id := db.next_flow_id, stage_id := fs.id, assignee_id := a.id, status := TaskStatus.PENDING, assigned_at := now, completed_at := none }].filter
          (fun t => t.flow_instance_id == f.id && decide (t.status = TaskStatus.PENDING))) := by
      unfold pendingFor
      rw [htasks, List.filter_append]
    rcases List.mem_append.mp hf with hf' | hf'
    · have hne : db.next_flow_id ≠ f.id := by
        have := inv.flow_ids_lt f hf'
        omega
      rw [hsplit]
      rw [List.filter_cons]
      rw [if_neg (by simp [hne])]
      simpa using inv.pending_le_one f hf'
    · simp only [List.mem_singleton] at hf'
      subst hf'
      rw [hsplit]
      have hold : pendingFor db db.next_flow_id = [] := by
        unfold pendingFor
        rw [List.filter_eq_nil_iff]
        intro t htm hp
        simp only [Bool.and_eq_true, beq_iff_eq] at hp
        exact hnewtaskflow t htm hp.1
      simp [hold]
  · rw [hflows]
    intro f hf hdone
    rcases List.mem_append.mp hf with hf' | hf'
    · have hne : db.next_flow_id ≠ f.id := by
        have := inv.flow_ids_lt f hf'
        omega
      unfold pendingFor
      rw [htasks, List.filter_append]
      rw [List.filter_cons]
      rw [if_neg (by simp [hne])]
      have := inv.pending_none_done f hf' hdone
      unfold pendingFor at this
      simp [this]
    · simp only [List.mem_singleton] at hf'
      subst hf'
      rcases hdone with hd | hd <;> exact absurd hd (by simp)
  · rw [hfdv, htasks]
    intro v hv
    obtain ⟨t, htm, htid2, hts⟩ := inv.fdv_task v hv
    exact ⟨t, List.mem_append_left _ htm, htid2, hts⟩
  · intro tid0 fid
    have : fdvsFor db' tid0 fid = fdvsFor db tid0 fid := by
      unfold fdvsFor
      rw [hfdv]
    rw [this]
    exact inv.fdv_unique tid0 fid

/-- `CompleteTask` preserves the invariant (the submission's keys come from a
dict, hence are distinct). -/
lemma Inv_complete {db db' : Store} {task_id : Nat} {fd : List (Nat × JsonValue)}
    {u : User} {now : ℚ} (inv : Inv db) (hkeys : (fd.map Prod.fst).Nodup)
    (h : complete_task db task_id fd u now = .ok db') : Inv db' := by
  obtain ⟨task, stage, fi, tm, ini, htask, hna, hst, hS, hFl, hTm, hIn, hbr⟩ :=
    complete_task_ok_elim h
  have htaskmem : task ∈ db.tasks := List.mem_of_find?_eq_some htask
  have htid : task.id = task_id := by simpa using List.find?_some htask
  have hfimem : fi ∈ db.flows := List.mem_of_find?_eq_some hFl
  have hfiid : fi.id = task.flow_instance_id := by simpa using List.find?_some hFl
  have hinjT := List.inj_on_of_nodup_map inv.task_ids_nodup
  have hinjF := List.inj_on_of_nodup_map inv.flow_ids_nodup
  have htpend : task ∈ pendingFor db fi.id := by
    unfold pendingFor
    rw [List.mem_filter]
    exact ⟨htaskmem, by simp [← hfiid, hst]⟩
  have hfiactive : fi.status = .ACTIVE := by
    rcases inv.status_range fi hfimem with h1 | h1
    · exact h1
    · exfalso
      have h2 := inv.pending_none_done fi hfimem (Or.inl h1)
      rw [h2] at htpend
      exact absurd htpend (List.not_mem_nil _)
  have honly : ∀ t ∈ db.tasks, t.flow_instance_id = fi.id → t.status = .PENDING →
      t = task := by
    intro t ht hfid hp
    by_contra hne
    have ht2 : t ∈ pendingFor db fi.id := by
      unfold pendingFor
      rw [List.mem_filter]
      exact ⟨ht, by simp [hfid, hp]⟩
    have h2 := two_le_length_of_ne_mem ht2 htpend hne
    have h3 := inv.pending_le_one fi hfimem
    omega
  have hfilter_other : ∀ fid, fid ≠ fi.id →
      (db.tasks.map (markTaskCompleted task_id now)).filter
        (fun t => t.flow_instance_id == fid && decide (t.status = TaskStatus.PENDING)) =
      db.tasks.filter
        (fun t => t.flow_instance_id == fid && decide (t.status = TaskStatus.PENDING)) := by
    intro fid hne
    apply filter_map_eq_of_agree
    intro x hx
    by_cases hxid : x.id = task_id
    · have hxeq : x = task := hinjT hx htaskmem (by rw [hxid, htid])
      have hne2 : (x.flow_instance_id == fid) = false := by
        rw [hxeq, ← hfiid]
        exact beq_eq_false_iff_ne.mpr (Ne.symm hne)
      constructor
      · rw [markTaskCompleted_self hxid]
        simp [hne2]
      · intro hp
        rw [Bool.and_eq_true, hne2] at hp
        exact absurd hp.1 (by simp)
    · exact ⟨by rw [markTaskCompleted_other hxid], fun _ => markTaskCompleted_other hxid⟩
  have hfilter_fi :
      (db.tasks.map (markTaskCompleted task_id now)).filter
        (fun t => t.flow_instance_id == fi.id && decide (t.status = TaskStatus.PENDING)) =
        [] := by
    rw [List.filter_eq_nil_iff]
    intro y hy
    obtain ⟨x, hx, rfl⟩ := List.mem_map.mp hy
    by_cases hxid : x.id = task_id
    · rw [markTaskCompleted_self hxid]
      simp
    · rw [markTaskCompleted_other hxid]
      intro hp
      simp only [Bool.and_eq_true, beq_iff_eq, decide_eq_true_eq] at hp
      exact hxid (by rw [honly x hx hp.1 hp.2, htid])
  have hmapids : (db.tasks.map (markTaskCompleted task_id now)).map TaskInstance.id =
      db.tasks.map TaskInstance.id := by
    rw [List.map_map]
    exact List.map_congr_left (fun x _ => markTaskCompleted_id task_id now x)
  have hmarkstatus : ∀ t : TaskInstance, t.status = .COMPLETED →
      (markTaskCompleted task_id now t).status = .COMPLETED := by
    intro t hts
    by_cases hxid : t.id = task_id
    · rw [markTaskCompleted_self hxid]
    · rw [markTaskCompleted_other hxid]
      exact hts
  have hfdv_old_none : ∀ tid0, tid0 = task.id → ∀ v ∈ db.form_data_values,
      v.task_instance_id ≠ tid0 := by
    intro tid0 h0 v hv heq
    obtain ⟨t, ht, htid2, hts⟩ := inv.fdv_task v hv
    have : t = task := hinjT ht htaskmem (by rw [htid2, heq, h0, htid])
    rw [this, hst] at hts
    exact absurd hts (by simp)
  rcases hbr with ⟨ns, na, hNs, hRa, rfl⟩ | ⟨hNs, rfl⟩
  · refine ⟨?_, ?_, ?_, ?_, ?_, ?_, ?_, ?_, ?_, ?_, ?_, ?_⟩
    · dsimp only [completeAdvance]
      intro f hf
      obtain ⟨x, hx, rfl⟩ := List.mem_map.mp hf
      have := inv.flow_ids_lt x hx
      split <;> exact this
    · have hids : (db.flows.map (fun f : FlowInstance =>
          if (f.id == fi.id) = true then
            { f with current_stage_id := some ns.id, current_assignee_id := some na.id }
          else f)).map FlowInstance.id = db.flows.map FlowInstance.id := by
        rw [List.map_map]
        apply List.map_congr_left
        intro x hx
        simp only [Function.comp_apply]
        split <;> rfl
      dsimp only [completeAdvance]
      rw [hids]
      exact inv.flow_ids_nodup
    · dsimp only [completeAdvance]
      intro t ht
      rcases List.mem_append.mp ht with ht' | ht'
      · obtain ⟨x, hx, rfl⟩ := List.mem_map.mp ht'
        rw [markTaskCompleted_id]
        have := inv.task_ids_lt x hx
        omega
      · simp only [List.mem_singleton] at ht'
        subst ht'
        exact Nat.lt_succ_self _
    · dsimp only [completeAdvance]
      rw [List.map_append, hmapids, List.nodup_append]
      refine ⟨inv.task_ids_nodup, by simp, ?_⟩
      simp only [List.map_cons, List.map_nil, List.disjoint_singleton]
      intro hmem
      obtain ⟨t, htm2, htid2⟩ := List.mem_map.mp hmem
      have := inv.task_ids_lt t htm2
      omega
    · dsimp only [completeAdvance]
      intro t ht
      rcases List.mem_append.mp ht with ht' | ht'
      · obtain ⟨x, hx, rfl⟩ := List.mem_map.mp ht'
        obtain ⟨f0, hf0, hfid0⟩ := inv.task_flow_exists x hx
        refine ⟨_, List.mem_map_of_mem _ hf0, ?_⟩
        rw [markTaskCompleted_flow]
        split <;> exact hfid0
      · simp only [List.mem_singleton] at ht'
        subst ht'
        refine ⟨_, List.mem_map_of_mem _ hfimem, ?_⟩
        split <;> rfl
    · dsimp only [completeAdvance]
      intro f hf
      obtain ⟨x, hx, rfl⟩ := List.mem_map.mp hf
      have := inv.status_range x hx
      split <;> exact this
    · dsimp only [completeAdvance]
      intro f hf
      obtain ⟨x, hx, rfl⟩ := List.mem_map.mp hf
      by_cases hxfi : (x.id == fi.id) = true
      · rw [if_pos hxfi]
        have hxeq : x = fi := hinjF hx hfimem (by simpa using hxfi)
        simp [hxeq, hfiactive]
      · rw [if_neg hxfi]
        exact inv.stage_iff_active x hx
    · dsimp only [completeAdvance]
      intro f hf
      obtain ⟨x, hx, rfl⟩ := List.mem_map.mp hf
      have := inv.completed_at_iff x hx
      split <;> exact this
    · dsimp only [completeAdvance]
      intro f hf
      obtain ⟨x, hx, rfl⟩ := List.mem_map.mp hf
      have hfid' : (if (x.id == fi.id) = true then
          { x with current_stage_id := some ns.id, current_assignee_id := some na.id }
        else x).id = x.id := by
        split <;> rfl
      rw [hfid']
      unfold pendingFor
      dsimp only
      rw [List.filter_append]
      by_cases hxfi : x.id = fi.id
      · rw [hxfi, hfilter_fi]
        simp
      · rw [hfilter_other x.id hxfi]
        rw [List.filter_cons]
        rw [if_neg (by simp; intro hh; exact absurd hh.symm hxfi)]
        simpa [pendingFor] using inv.pending_le_one x hx
    · dsimp only [completeAdvance]
      intro f hf hdone
      obtain ⟨x, hx, rfl⟩ := List.mem_map.mp hf
      by_cases hxfi : (x.id == fi.id) = true
      · exfalso
        have hxeq : x = fi := hinjF hx hfimem (by simpa using hxfi)
        rw [if_pos hxfi] at hdone
        have : x.status = FlowStatus.COMPLETED ∨ x.status = FlowStatus.TERMINATED := hdone
        rw [hxeq, hfiactive] at this
        rcases this with h1 | h1 <;> exact absurd h1 (by simp)
      · rw [if_neg hxfi] at hdone ⊢
        have hxne : x.id ≠ fi.id := by simpa using hxfi
        unfold pendingFor
        dsimp only
        rw [List.filter_append]
        rw [hfilter_other x.id hxne]
        rw [List.filter_cons]
        rw [if_neg (by simp; intro hh; exact absurd hh.symm hxne)]
        have := inv.pending_none_done x hx hdone
        unfold pendingFor at this
        simp [this]
    · dsimp only [completeAdvance]
      intro v hv
      rcases List.mem_append.mp hv with hv' | hv'
      · obtain ⟨t, ht, htid2, hts⟩ := inv.fdv_task v hv'
        refine ⟨markTaskCompleted task_id now t,
          List.mem_append_left _ (List.mem_map_of_mem _ ht), ?_, hmarkstatus t hts⟩
        rw [markTaskCompleted_id]
        exact htid2
      · refine ⟨markTaskCompleted task_id now task,
          List.mem_append_left _ (List.mem_map_of_mem _ htaskmem), ?_, ?_⟩
        · rw [markTaskCompleted_id]
          exact (mkFormDataValues_mem_tid hv').symm
        · rw [markTaskCompleted_self htid]
    · intro tid0 fid
      unfold fdvsFor
      dsimp only [completeAdvance]
      rw [List.filter_append]
      by_cases htid0 : tid0 = task.id
      · have hold : db.form_data_values.filter
            (fun v => v.task_instance_id == tid0 && v.form_field_id == fid) = [] := by
          rw [List.filter_eq_nil_iff]
          intro v hv hp
          simp only [Bool.and_eq_true, beq_iff_eq] at hp
          exact hfdv_old_none tid0 htid0 v hv hp.1
        rw [hold]
        simpa using mkFormDataValues_filter_le_one hkeys tid0 fid db.next_fdv_id task.id
      · have hnew : (mkFormDataValues db.next_fdv_id task.id fd).filter
            (fun v => v.task_instance_id == tid0 && v.form_field_id == fid) = [] := by
          rw [List.filter_eq_nil_iff]
          intro v hv hp
          simp only [Bool.and_eq_true, beq_iff_eq] at hp
          exact htid0 (((mkFormDataValues_mem_tid hv).symm.trans hp.1).symm)
        rw [hnew]
        simpa [fdvsFor] using inv.fdv_unique tid0 fid
  · refine ⟨?_, ?_, ?_, ?_, ?_, ?_, ?_, ?_, ?_, ?_, ?_, ?_⟩
    · dsimp only [completeFinish]
      intro f hf
      obtain ⟨x, hx, rfl⟩ := List.mem_map.mp hf
      have := inv.flow_ids_lt x hx
      split <;> exact this
    · have hids : (db.flows.map (fun f : FlowInstance =>
          if (f.id == fi.id) = true then
            { f with status := FlowStatus.COMPLETED, completed_at := some now, current_stage_id := none, current_assignee_id := none }
          else f)).map FlowInstance.id = db.flows.map FlowInstance.id := by
        rw [List.map_map]
        apply List.map_congr_left
        intro x hx
        simp only [Function.comp_apply]
        split <;> rfl
      dsimp only [completeFinish]
      rw [hids]
      exact inv.flow_ids_nodup
    · dsimp only [completeFinish]
      intro t ht
      obtain ⟨x, hx, rfl⟩ := List.mem_map.mp ht
      rw [markTaskCompleted_id]
      exact inv.task_ids_lt x hx
    · dsimp only [completeFinish]
      rw [hmapids]
      exact inv.task_ids_nodup
    · dsimp only [completeFinish]
      intro t ht
      obtain ⟨x, hx, rfl⟩ := List.mem_map.mp ht
      obtain ⟨f0, hf0, hfid0⟩ := inv.task_flow_exists x hx
      refine ⟨_, List.mem_map_of_mem _ hf0, ?_⟩
      rw [markTaskCompleted_flow]
      split <;> exact hfid0
    · dsimp only [completeFinish]
      intro f hf
      obtain ⟨x, hx, rfl⟩ := List.mem_map.mp hf
      split
      · exact Or.inr rfl
      · exact inv.status_range x hx
    · dsimp only [completeFinish]
      intro f hf
      obtain ⟨x, hx, rfl⟩ := List.mem_map.mp hf
      split
      · simp
      · exact inv.stage_iff_active x hx
    · dsimp only [completeFinish]
      intro f hf
      obtain ⟨x, hx, rfl⟩ := List.mem_map.mp hf
      split
      · simp
      · exact inv.completed_at_iff x hx
    · dsimp only [completeFinish]
      intro f hf
      obtain ⟨x, hx, rfl⟩ := List.mem_map.mp hf
      have hfid' : (if (x.id == fi.id) = true then
          { x with status := FlowStatus.COMPLETED, completed_at := some now,
                   current_stage_id := none, current_assignee_id := none }
        else x).id = x.id := by
        split <;> rfl
      rw [hfid']
      unfold pendingFor
      dsimp only
      by_cases hxfi : x.id = fi.id
      · rw [hxfi, hfilter_fi]
        simp
      · rw [hfilter_other x.id hxfi]
        simpa [pendingFor] using inv.pending_le_one x hx
    · dsimp only [completeFinish]
      intro f hf hdone
      obtain ⟨x, hx, rfl⟩ := List.mem_map.mp hf
      have hfid' : (if (x.id == fi.id) = true then
          { x with status := FlowStatus.COMPLETED, completed_at := some now,
                   current_stage_id := none, current_assignee_id := none }
        else x).id = x.id := by
        split <;> rfl
      rw [hfid']
      unfold pendingFor
      dsimp only
      by_cases hxfi : x.id = fi.id
      · rw [hxfi, hfilter_fi]
      · rw [hfilter_other x.id hxfi]
        rw [if_neg (by simpa using hxfi)] at hdone
        have := inv.pending_none_done x hx hdone
        unfold pendingFor at this
        exact this
    · dsimp only [completeFinish]
      intro v hv
      rcases List.mem_append.mp hv with hv' | hv'
      · obtain ⟨t, ht, htid2, hts⟩ := inv.fdv_task v hv'
        refine ⟨markTaskCompleted task_id now t, List.mem_map_of_mem _ ht, ?_,
          hmarkstatus t hts⟩
        rw [markTaskCompleted_id]
        exact htid2
      · refine ⟨markTaskCompleted task_id now task, List.mem_map_of_mem _ htaskmem, ?_, ?_⟩
        · rw [markTaskCompleted_id]
          exact (mkFormDataValues_mem_tid hv').symm
        · rw [markTaskCompleted_self htid]
    · intro tid0 fid
      unfold fdvsFor
      dsimp only [completeFinish]
      rw [List.filter_append]
      by_cases htid0 : tid0 = task.id
      · have hold : db.form_data_values.filter
            (fun v => v.task_instance_id == tid0 && v.form_field_id == fid) = [] := by
          rw [List.filter_eq_nil_iff]
          intro v hv hp
          simp only [Bool.and_eq_true, beq_iff_eq] at hp
          exact hfdv_old_none tid0 htid0 v hv hp.1
        rw [hold]
        simpa using mkFormDataValues_filter_le_one hkeys tid0 fid db.next_fdv_id task.id
      · have hnew : (mkFormDataValues db.next_fdv_id task.id fd).filter
            (fun v => v.task_instance_id == tid0 && v.form_field_id == fid) = [] := by
          rw [List.filter_eq_nil_iff]
          intro v hv hp
          simp only [Bool.and_eq_true, beq_iff_eq] at hp
          exact htid0 (((mkFormDataValues_mem_tid hv).symm.trans hp.1).symm)
        rw [hnew]
        simpa [fdvsFor] using inv.fdv_unique tid0 fid

/-- Every reachable store satisfies the inductive invariant. -/
lemma Inv_reachable {db : Store} (h : Reachable db) : Inv db := by
  obtain ⟨users, roles, templates, hsteps⟩ := h
  induction hsteps with
  | refl => exact Inv_initial users roles templates
  | tail hab hbc ih =>
    cases hbc with
    | start tid title descr u now hok => exact Inv_create ih hok
    | complete task_id fd u now hkeys hok => exact Inv_complete ih hkeys hok

/-! ### Claim C2: reachable-state invariants of flow instances -/

/-- Claim C2: in every store reachable from an execution-empty store by
committed `StartFlow` / `CompleteTask` operations, every flow instance has
`current_stage_id` non-null iff it is ACTIVE, `completed_at` non-null iff it
is COMPLETED or TERMINATED, and at most one PENDING task (none once COMPLETED
or TERMINATED). -/
theorem claim_C2_flow_invariants :
    ∀ db : Store, Reachable db →
      ∀ f ∈ db.flows,
        (f.current_stage_id ≠ none ↔ f.status = .ACTIVE) ∧
        (f.completed_at ≠ none ↔ (f.status = .COMPLETED ∨ f.status = .TERMINATED)) ∧
        (pendingFor db f.id).length ≤ 1 ∧
        (f.status = .COMPLETED ∨ f.status = .TERMINATED → pendingFor db f.id = []) := by
  intro db h f hf
  have inv := Inv_reachable h
  refine ⟨?_, ?_, inv.pending_le_one f hf, inv.pending_none_done f hf⟩
  · rw [← inv.stage_iff_active f hf]
    simp [Option.isSome_iff_ne_none]
  · rw [← inv.completed_at_iff f hf]
    simp [Option.isSome_iff_ne_none]

/-- Claim C2, witness: the invariants hold for the flow of `exStoreStarted`,
reached from an execution-empty store by one committed `StartFlow`. -/
theorem claim_C2_witness :
    (exFlowStarted.current_stage_id ≠ none ↔ exFlowStarted.status = .ACTIVE) ∧
    (exFlowStarted.completed_at ≠ none ↔
      (exFlowStarted.status = .COMPLETED ∨ exFlowStarted.status = .TERMINATED)) ∧
    (pendingFor exStoreStarted exFlowStarted.id).length ≤ 1 ∧
    (exFlowStarted.status = .COMPLETED ∨ exFlowStarted.status = .TERMINATED →
      pendingFor exStoreStarted exFlowStarted.id = []) :=
  claim_C2_flow_invariants exStoreStarted
    ⟨[exUser1, exUser2], [], [exTemplateA, exTemplateB, exTemplateC],
      Relation.ReflTransGen.single
        (Step.start _ _ 1 "Ship the feature" none exUser1 0 rfl)⟩
    exFlowStarted (by decide)

/-! ### Claim C10: at most one FormDataValue per (task, field) pair -/

/-- Claim C10: in every reachable store there is at most one FormDataValue
row per (task instance, form field) pair — the submission is a dict keyed by
field id, and form values are only created at a task's single
PENDING-to-COMPLETED transition. -/
theorem claim_C10_form_value_unique :
    ∀ db : Store, Reachable db → ∀ tid fid : Nat, (fdvsFor db tid fid).length ≤ 1 := by
  intro db h tid fid
  exact (Inv_reachable h).fdv_unique tid fid

/-- Claim C10, witness: after starting a flow and completing its first task
with one form value, the (task 1, field 101) pair has at most one row. -/
theorem claim_C10_witness : (fdvsFor exStoreDone 1 101).length ≤ 1 :=
  claim_C10_form_value_unique exStoreDone
    ⟨[exUser1, exUser2], [], [exTemplateA, exTemplateB, exTemplateC],
      Relation.ReflTransGen.tail
        (Relation.ReflTransGen.single
          (Step.start _ _ 1 "Ship the feature" none exUser1 0 rfl))
        (Step.complete _ _ 1 [(101, JsonValue.str "done")] exUser1 1 (by decide) rfl)⟩
    1 101

end FlowApp
